import Mathlib

/-!
# Verification development for the DisReserv repository

Shallow embedding, over the real numbers, of the forward-modelling code in
`compaction.py` (prism engine: kernels, corner-summation engine, validation,
mesh builders) and `geertsma.py` (disk analytic model `Int1`–`Int4`,
`geertsma`).  Machine floats are modelled by `ℝ`; where a claim is about
IEEE-754 special values (NaN/infinity) a dedicated float-value model `FReal`
is used, see below.  The elliptic special functions imported from scipy are
not part of the repository; they are passed as explicit function parameters
(`Ellip`, `EllipF`).
-/

namespace DisReserv

noncomputable section

/-! ## Numeric primitives of `compaction.py` -/

/-- `safe_log` (compaction.py): modified log returning 0 for arguments
within 1e-10 of 0. -/
def safe_log (argument : ℝ) : ℝ :=
  if |argument| < 1e-10 then 0 else Real.log argument

/-- `safe_atan2` (compaction.py): principal-value two-argument arctangent. -/
def safe_atan2 (numerator denominator : ℝ) : ℝ :=
  if denominator ≠ 0 then Real.arctan (numerator / denominator)
  else if numerator > 0 then Real.pi / 2
  else if numerator < 0 then -(Real.pi) / 2
  else 0

/-- `Cm` (compaction.py): uniaxial compaction coefficient. -/
def Cm (poisson young : ℝ) : ℝ :=
  ((1 + poisson) * (1 - 2 * poisson)) / (young * (1 - poisson))

/-! ## Prisms and kernels -/

/-- One row of the prism array.  The fields are in the source's column order
`y1, y2, x1, x2, z2, z1` (columns 0–5). -/
structure Prism where
  y1 : ℝ
  y2 : ℝ
  x1 : ℝ
  x2 : ℝ
  z2 : ℝ
  z1 : ℝ

/-- Type of the kernel functions: arguments `y x z zc yp xp zp`. -/
abbrev Kern := ℝ → ℝ → ℝ → ℝ → ℝ → ℝ → ℝ → ℝ

/-- `kernel_d_x1` (compaction.py). -/
def kernel_d_x1 : Kern := fun y x z _zc yp xp zp =>
  let Y := y - yp
  let X := x - xp
  let Z := z - zp
  let rho := Real.sqrt (Y ^ 2 + X ^ 2 + Z ^ 2)
  Y * safe_log (Z + rho) + Z * safe_log (Y + rho) - X * safe_atan2 (Y * Z) (X * rho)

/-- `kernel_d_y1` (compaction.py). -/
def kernel_d_y1 : Kern := fun y x z _zc yp xp zp =>
  let Y := y - yp
  let X := x - xp
  let Z := z - zp
  let rho := Real.sqrt (Y ^ 2 + X ^ 2 + Z ^ 2)
  X * safe_log (Z + rho) + Z * safe_log (X + rho) - Y * safe_atan2 (X * Z) (Y * rho)

/-- `kernel_d_z1` (compaction.py). -/
def kernel_d_z1 : Kern := fun y x z _zc yp xp zp =>
  let Y := y - yp
  let X := x - xp
  let Z := z - zp
  let rho := Real.sqrt (Y ^ 2 + X ^ 2 + Z ^ 2)
  X * safe_log (Y + rho) + Y * safe_log (X + rho) - Z * safe_atan2 (X * Y) (Z * rho)

/-- `kernel_d_x2` (compaction.py). -/
def kernel_d_x2 : Kern := fun y x z zc yp xp zp =>
  let Y := y - yp
  let X := x - xp
  let Z := z - zp - 2 * zc
  let rho := Real.sqrt (Y ^ 2 + X ^ 2 + Z ^ 2)
  Y * safe_log (Z + rho) + Z * safe_log (Y + rho) - X * safe_atan2 (Y * Z) (X * rho)

/-- `kernel_d_y2` (compaction.py). -/
def kernel_d_y2 : Kern := fun y x z zc yp xp zp =>
  let Y := y - yp
  let X := x - xp
  let Z := z - zp - 2 * zc
  let rho := Real.sqrt (Y ^ 2 + X ^ 2 + Z ^ 2)
  X * safe_log (Z + rho) + Z * safe_log (X + rho) - Y * safe_atan2 (X * Z) (Y * rho)

/-- `kernel_d_z2` (compaction.py). -/
def kernel_d_z2 : Kern := fun y x z zc yp xp zp =>
  let Y := y - yp
  let X := x - xp
  let Z := z - zp - 2 * zc
  let rho := Real.sqrt (Y ^ 2 + X ^ 2 + Z ^ 2)
  X * safe_log (Y + rho) + Y * safe_log (X + rho) - Z * safe_atan2 (X * Y) (Z * rho)

/-- `kernel_d_xz2` (compaction.py). -/
def kernel_d_xz2 : Kern := fun y x z zc yp xp zp =>
  let Y := y - yp
  let X := x - xp
  let Z := z - zp - 2 * zc
  let rho := Real.sqrt (Y ^ 2 + X ^ 2 + Z ^ 2)
  2 * zp * (safe_log (Y + rho))

/-- `kernel_d_yz2` (compaction.py). -/
def kernel_d_yz2 : Kern := fun y x z zc yp xp zp =>
  let Y := y - yp
  let X := x - xp
  let Z := z - zp - 2 * zc
  let rho := Real.sqrt (Y ^ 2 + X ^ 2 + Z ^ 2)
  2 * zp * (safe_log (X + rho))

/-- `kernel_d_zz2` (compaction.py). -/
def kernel_d_zz2 : Kern := fun y x z zc yp xp zp =>
  let Y := y - yp
  let X := x - xp
  let Z := z - zp - 2 * zc
  let rho := Real.sqrt (Y ^ 2 + X ^ 2 + Z ^ 2)
  2 * zp * (-safe_atan2 (X * Y) (Z * rho))

/-- `kernel_s_xz1` (compaction.py). -/
def kernel_s_xz1 : Kern := fun y x z _zc yp xp zp =>
  let Y := y - yp
  let X := x - xp
  let Z := z - zp
  let rho := Real.sqrt (Y ^ 2 + X ^ 2 + Z ^ 2)
  safe_log (Y + rho)

/-- `kernel_s_yz1` (compaction.py). -/
def kernel_s_yz1 : Kern := fun y x z _zc yp xp zp =>
  let Y := y - yp
  let X := x - xp
  let Z := z - zp
  let rho := Real.sqrt (Y ^ 2 + X ^ 2 + Z ^ 2)
  safe_log (X + rho)

/-- `kernel_s_zz1` (compaction.py). -/
def kernel_s_zz1 : Kern := fun y x z _zc yp xp zp =>
  let Y := y - yp
  let X := x - xp
  let Z := z - zp
  let rho := Real.sqrt (Y ^ 2 + X ^ 2 + Z ^ 2)
  let kern := -safe_atan2 (X * Y) (Z * rho)
  kern

/-- `kernel_s_xz2` (compaction.py). -/
def kernel_s_xz2 : Kern := fun y x z zc yp xp zp =>
  let Y := y - yp
  let X := x - xp
  let Z := z - zp - 2 * zc
  let rho := Real.sqrt (Y ^ 2 + X ^ 2 + Z ^ 2)
  safe_log (Y + rho)

/-- `kernel_s_yz2` (compaction.py). -/
def kernel_s_yz2 : Kern := fun y x z zc yp xp zp =>
  let Y := y - yp
  let X := x - xp
  let Z := z - zp - 2 * zc
  let rho := Real.sqrt (Y ^ 2 + X ^ 2 + Z ^ 2)
  safe_log (X + rho)

/-- `kernel_s_zz2` (compaction.py). -/
def kernel_s_zz2 : Kern := fun y x z zc yp xp zp =>
  let Y := y - yp
  let X := x - xp
  let Z := z - zp - 2 * zc
  let rho := Real.sqrt (Y ^ 2 + X ^ 2 + Z ^ 2)
  let kern := -safe_atan2 (X * Y) (Z * rho)
  kern

/-- `kernel_s_xzz2` (compaction.py). -/
def kernel_s_xzz2 : Kern := fun y x z zc yp xp zp =>
  let Y := y - yp
  let X := x - xp
  let Z := z - zp - 2 * zc
  let aux := X ^ 2 + Z ^ 2
  let rho := Real.sqrt (Y ^ 2 + aux)
  2 * zp * (-(Y * Z) / (rho * aux))

/-- `kernel_s_yzz2` (compaction.py). -/
def kernel_s_yzz2 : Kern := fun y x z zc yp xp zp =>
  let Y := y - yp
  let X := x - xp
  let Z := z - zp - 2 * zc
  let aux := Y ^ 2 + Z ^ 2
  let rho := Real.sqrt (X ^ 2 + aux)
  2 * zp * (-(X * Z) / (rho * aux))

/-- `kernel_s_zzz2` (compaction.py). -/
def kernel_s_zzz2 : Kern := fun y x z zc yp xp zp =>
  let Y := y - yp
  let X := x - xp
  let Z := z - zp - 2 * zc
  let X2 := X ^ 2
  let Y2 := Y ^ 2
  let Z2 := Z ^ 2
  let rho := Real.sqrt (X2 + Y2 + Z2)
  2 * zp * (((X * Y) / rho) * ((1 / (X2 + Z2)) + (1 / (Y2 + Z2))))

/-! ## Corner-summation engine (`jit_field_component`) -/

/-- The y-coordinate `prisms[m, 1-i]` selected by loop index `i`
(`i = 0` gives column 1 = `y2`, `i = 1` gives column 0 = `y1`). -/
def prismY (pr : Prism) (i : ℕ) : ℝ := if i = 0 then pr.y2 else pr.y1

/-- The x-coordinate `prisms[m, 3-j]` selected by loop index `j`. -/
def prismX (pr : Prism) (j : ℕ) : ℝ := if j = 0 then pr.x2 else pr.x1

/-- The z-coordinate `prisms[m, 5-k]` selected by loop index `k`
(`k = 0` gives column 5 = `z1`, `k = 1` gives column 4 = `z2`). -/
def prismZ (pr : Prism) (k : ℕ) : ℝ := if k = 0 then pr.z1 else pr.z2

/-- The three nested corner loops of `jit_field_component` for one prism of
pressure `p`: accumulate `p * (-1)^(i+j+k) * kernel(y, x, z, c_z, yp, xp, zp)`
over `i, j, k ∈ {0, 1}`, with `c_z = 0.5*(z2 + z1)`. -/
def cornerLoop (kernel : Kern) (p : ℝ) (pr : Prism) (yp xp zp : ℝ) : ℝ :=
  let c_z := 0.5 * (pr.z2 + pr.z1)
  List.foldl
    (fun acc i =>
      List.foldl
        (fun acc j =>
          List.foldl
            (fun acc k =>
              acc + p * (-1 : ℝ) ^ (i + j + k) *
                kernel (prismY pr i) (prismX pr j) (prismZ pr k) c_z yp xp zp)
            acc [0, 1])
        acc [0, 1])
    0 [0, 1]

/-- The inner prism loop of `jit_field_component`: the value accumulated into
`out[l]` for one computation point `(yp, xp, zp)`. -/
def jit_point (kernel : Kern) (prisms : List Prism) (pressure : List ℝ)
    (yp xp zp : ℝ) : ℝ :=
  List.foldl (fun acc pp => acc + cornerLoop kernel pp.2 pp.1 yp xp zp) 0
    (prisms.zip pressure)

/-- `jit_field_component` (compaction.py): the whole output array, one entry
per computation point. -/
def jit_field_component (kernel : Kern) (prisms : List Prism)
    (pressure : List ℝ) (coordinates : List (ℝ × ℝ × ℝ)) : List ℝ :=
  coordinates.map fun c => jit_point kernel prisms pressure c.1 c.2.1 c.2.2

/-! ## Validation (`_check_prisms`) and `field_component` -/

/-- The boundary check violated by a row: `bad_y`, `bad_x` or `bad_z`. -/
inductive BoundKind where
  | y : BoundKind
  | x : BoundKind
  | z : BoundKind
deriving DecidableEq

/-- `bad_y`: the row has `y1 > y2`. -/
def badY (p : Prism) : Bool := decide (p.y1 > p.y2)

/-- `bad_x`: the row has `x1 > x2`. -/
def badX (p : Prism) : Bool := decide (p.x1 > p.x2)

/-- `bad_z`: the row has `z1 > z2`. -/
def badZ (p : Prism) : Bool := decide (p.z1 > p.z2)

/-- Which rows violate a given boundary check. -/
def violates : BoundKind → Prism → Bool
  | .y => badY
  | .x => badX
  | .z => badZ

/-- The content of the `ValueError` message raised by `_check_prisms`: which
boundary check fired (the message's header sentence) and the list of
offending rows printed below it. -/
structure CheckError where
  kind : BoundKind
  rows : List Prism

/-- `_check_prisms` (compaction.py): raises on `bad_y` first, else `bad_x`,
else `bad_z`; the raised message lists exactly the rows violating the check
that fired. -/
def check_prisms (prisms : List Prism) : Except CheckError Unit :=
  if prisms.any badY then .error ⟨.y, prisms.filter badY⟩
  else if prisms.any badX then .error ⟨.x, prisms.filter badX⟩
  else if prisms.any badZ then .error ⟨.z, prisms.filter badZ⟩
  else .ok ()

/-- The errors `field_component` can raise. -/
inductive FieldError where
  | unknownKernel (name : String) : FieldError
  | pressureMismatch (npressure nprisms : ℕ) : FieldError
  | invalidPrisms (e : CheckError) : FieldError

/-- The fixed kernel dictionary of `field_component`, as a name lookup. -/
def kernel_of (name : String) : Option Kern :=
  if name = "d_x1" then some kernel_d_x1
  else if name = "d_y1" then some kernel_d_y1
  else if name = "d_z1" then some kernel_d_z1
  else if name = "d_x2" then some kernel_d_x2
  else if name = "d_y2" then some kernel_d_y2
  else if name = "d_z2" then some kernel_d_z2
  else if name = "d_xz2" then some kernel_d_xz2
  else if name = "d_yz2" then some kernel_d_yz2
  else if name = "d_zz2" then some kernel_d_zz2
  else if name = "s_xz1" then some kernel_s_xz1
  else if name = "s_yz1" then some kernel_s_yz1
  else if name = "s_zz1" then some kernel_s_zz1
  else if name = "s_xz2" then some kernel_s_xz2
  else if name = "s_yz2" then some kernel_s_yz2
  else if name = "s_zz2" then some kernel_s_zz2
  else if name = "s_xzz2" then some kernel_s_xzz2
  else if name = "s_yzz2" then some kernel_s_yzz2
  else if name = "s_zzz2" then some kernel_s_zzz2
  else none

/-- The sanity-check block of `field_component` (skipped when
`disable_checks` is set): pressure count first, then `_check_prisms`. -/
def run_checks (disable_checks : Bool) (prisms : List Prism)
    (pressure : List ℝ) : Except FieldError Unit :=
  if disable_checks then .ok ()
  else if pressure.length ≠ prisms.length then
    .error (.pressureMismatch pressure.length prisms.length)
  else
    match check_prisms prisms with
    | .error e => .error (.invalidPrisms e)
    | .ok () => .ok ()

/-- `field_component` (compaction.py): kernel lookup (raising
`unknownKernel` for a selector outside the dictionary), sanity checks, the
compiled corner-summation loop, and the final scaling of every entry by
`-Cm(poisson, young)/(4*pi)`. -/
def field_component (coordinates : List (ℝ × ℝ × ℝ)) (prisms : List Prism)
    (pressure : List ℝ) (poisson young : ℝ) (kernel : String)
    (disable_checks : Bool) : Except FieldError (List ℝ) :=
  match kernel_of kernel with
  | none => .error (.unknownKernel kernel)
  | some kfun =>
    match run_checks disable_checks prisms pressure with
    | .error e => .error e
    | .ok () =>
      .ok ((jit_field_component kfun prisms pressure coordinates).map
        fun v => v * (-(Cm poisson young) / (4 * Real.pi)))

/-! ## Mesh builders -/

/-- The inner `j` loop of `prism_layer_rectangular`: starting at abscissa
`x`, emit `n` cells `[y, y+dy, x, x+dx, bottom, top]` stepping `x += dx`. -/
def rect_row (y dy dx bottom top : ℝ) : ℕ → ℝ → List Prism
  | 0, _ => []
  | n + 1, x => ⟨y, y + dy, x, x + dx, bottom, top⟩ :: rect_row y dy dx bottom top n (x + dx)

/-- The outer `i` loop of `prism_layer_rectangular`: starting at ordinate
`y`, emit `rows` rows of `cols` cells, stepping `y += dy`. -/
def rect_rows (dy dx bottom top x1 : ℝ) (cols : ℕ) : ℕ → ℝ → List Prism
  | 0, _ => []
  | n + 1, y => rect_row y dy dx bottom top cols x1 ++ rect_rows dy dx bottom top x1 cols n (y + dy)

/-- `prism_layer_rectangular` (compaction.py).  The three `assert`
preconditions are modelled as returning `none`. -/
def prism_layer_rectangular (y1 y2 x1 x2 : ℝ) (rows cols : ℕ) (bottom top : ℝ) :
    Option (List Prism) :=
  if y2 > y1 ∧ x2 > x1 ∧ bottom > top then
    some (rect_rows ((y2 - y1) / rows) ((x2 - x1) / cols) bottom top x1 cols rows y1)
  else none

/-- The inner `j` loop of `prism_layer_circular`: keep the cell only when the
center distance `sqrt(xc^2 + yc^2)` is at most `radius`. -/
def circ_row (y dy dx half_dx bottom top x0 radius yc : ℝ) : ℕ → ℝ → List Prism
  | 0, _ => []
  | n + 1, x =>
    let xc := x + half_dx - x0
    (if Real.sqrt (xc ^ 2 + yc ^ 2) ≤ radius then [⟨y, y + dy, x, x + dx, bottom, top⟩] else [])
      ++ circ_row y dy dx half_dx bottom top x0 radius yc n (x + dx)

/-- The outer `i` loop of `prism_layer_circular`. -/
def circ_rows (dy dx half_dy half_dx bottom top y0 x0 radius x_min : ℝ) (cols : ℕ) :
    ℕ → ℝ → List Prism
  | 0, _ => []
  | n + 1, y =>
    let yc := y + half_dy - y0
    circ_row y dy dx half_dx bottom top x0 radius yc cols x_min
      ++ circ_rows dy dx half_dy half_dx bottom top y0 x0 radius x_min cols n (y + dy)

/-- `prism_layer_circular` (compaction.py).  The `assert` preconditions are
modelled as returning `none`. -/
def prism_layer_circular (y0 x0 radius : ℝ) (rows cols : ℕ) (bottom top : ℝ) :
    Option (List Prism) :=
  if radius > 0 ∧ bottom > top then
    let y_min := y0 - radius
    let y_max := y0 + radius
    let x_min := x0 - radius
    let x_max := x0 + radius
    let dy := (y_max - y_min) / rows
    let dx := (x_max - x_min) / cols
    some (circ_rows dy dx (0.5 * dy) (0.5 * dx) bottom top y0 x0 radius x_min cols rows y_min)
  else none

/-- The center-membership test that `prism_layer_circular` applies to a cell
of the bounding-square tiling (cell lower corner `(y1, x1)`, cell size
`(dy, dx)`). -/
def in_circle (y0 x0 radius dy dx : ℝ) (pr : Prism) : Bool :=
  decide (Real.sqrt ((pr.x1 + 0.5 * dx - x0) ^ 2 + (pr.y1 + 0.5 * dy - y0) ^ 2) ≤ radius)

/-! ## Geertsma disk model (`geertsma.py`), real-number semantics

The scipy elliptic integrals `ellipk, ellipe, ellipkinc, ellipeinc` are
external library functions, passed as explicit parameters. -/

/-- The four scipy elliptic-integral functions used by `geertsma.py`. -/
structure Ellip where
  ellipk : ℝ → ℝ
  ellipe : ℝ → ℝ
  ellipkinc : ℝ → ℝ → ℝ
  ellipeinc : ℝ → ℝ → ℝ

/-- `np.heaviside(x, h0)`: 0 for `x < 0`, `h0` for `x = 0`, 1 for `x > 0`. -/
def heaviside (x h0 : ℝ) : ℝ :=
  if x < 0 then 0 else if x = 0 then h0 else 1

/-- `Int1` (geertsma.py). -/
def Int1 (el : Ellip) (q r R : ℝ) : ℝ :=
  let m := 4 * R * r / (q ^ 2 + (r + R) ^ 2)
  let K := el.ellipk m
  let E0 := el.ellipe m
  2 * ((1 - m / 2) * K - E0) / (Real.pi * Real.sqrt (m * r * R))

/-- `Int2` (geertsma.py). -/
def Int2 (el : Ellip) (q r R : ℝ) : ℝ :=
  let m := 4 * R * r / (q ^ 2 + (r + R) ^ 2)
  let K := el.ellipk m
  let E0 := el.ellipe m
  q * Real.sqrt m * ((1 - m / 2) * E0 / (1 - m) - K) / (2 * Real.pi * Real.sqrt (r * R) ^ 3)

/-- `Int3` (geertsma.py): note the two `np.heaviside(·, 0.5)` calls, whose
value at argument 0 is 0.5. -/
def Int3 (el : Ellip) (q r R : ℝ) : ℝ :=
  let m := 4 * R * r / (q ^ 2 + (r + R) ^ 2)
  let K0 := el.ellipk m
  let K1 := el.ellipk (1 - m)
  let E1 := el.ellipe (1 - m)
  let beta := Real.arcsin (q / Real.sqrt (q ^ 2 + (R - r) ^ 2))
  let K2 := el.ellipkinc beta (1 - m)
  let E2 := el.ellipeinc beta (1 - m)
  let Z := E2 - E1 * K2 / K1
  let lamb := K2 / K1 + 2 * K0 * Z / Real.pi
  let I3 := -q * Real.sqrt m * K0 / (2 * Real.pi * R * Real.sqrt (r * R))
    + (heaviside (r - R) 0.5 - heaviside (R - r) 0.5) * lamb / (2 * R)
    + heaviside (R - r) 0.5 / R
  I3

/-- `Int4` (geertsma.py). -/
def Int4 (el : Ellip) (q r R : ℝ) : ℝ :=
  let m := 4 * R * r / (q ^ 2 + (r + R) ^ 2)
  let K0 := el.ellipk m
  let E0 := el.ellipe m
  Real.sqrt m ^ 3 * (R ^ 2 - r ^ 2 - q ^ 2) * E0 / (8 * Real.pi * Real.sqrt (r * R) ^ 3 * R * (1 - m))
    + Real.sqrt m * K0 / (2 * Real.pi * R * Real.sqrt (r * R))

/-- The quantity added to `ur[obs]` by one model entry in `geertsma`
(the source subtracts, so the leading sign is negative). -/
def geertsma_ur_term (el : Ellip) (poisson DP yp xp zp yc xc zc R : ℝ) : ℝ :=
  let r := Real.sqrt ((yp - yc) ^ 2 + (xp - xc) ^ 2 + (zp - zc) ^ 2)
  let term := -(DP * (Int1 el |zp - zc| r R + (3 - 4 * poisson) * Int1 el (zp + zc) r R
      - 2 * zp * Int2 el (zp + zc) r R))
  term

/-- The quantity added to `uz[obs]` by one model entry in `geertsma`.  The
first factor is the source's `(zp-zc)*Int3(|zp-zc|,r,R)/|zp-zc|`. -/
def geertsma_uz_term (el : Ellip) (poisson DP yp xp zp yc xc zc R : ℝ) : ℝ :=
  let r := Real.sqrt ((yp - yc) ^ 2 + (xp - xc) ^ 2 + (zp - zc) ^ 2)
  DP * ((zp - zc) * Int3 el |zp - zc| r R / |zp - zc|
      - (3 - 4 * poisson) * Int3 el (zp + zc) r R - 2 * zp * Int4 el (zp + zc) r R)

/-- `geertsma` (geertsma.py): per observation point, accumulate the radial
and vertical contributions over all model entries (entry centers are the
midpoints of the six-column bounds), then scale both accumulators by
`cm*R*h/2`. -/
def geertsma (el : Ellip) (coordinates : List (ℝ × ℝ × ℝ)) (model : List Prism)
    (DP : List ℝ) (cm poisson R h : ℝ) : List ℝ × List ℝ :=
  (coordinates.map fun c =>
      (List.foldl
        (fun acc md =>
          acc + geertsma_ur_term el poisson md.2 c.1 c.2.1 c.2.2
            ((md.1.y2 + md.1.y1) / 2) ((md.1.x2 + md.1.x1) / 2)
            ((md.1.z2 + md.1.z1) / 2) R)
        0 (model.zip DP)) * (cm * R * h / 2),
   coordinates.map fun c =>
      (List.foldl
        (fun acc md =>
          acc + geertsma_uz_term el poisson md.2 c.1 c.2.1 c.2.2
            ((md.1.y2 + md.1.y1) / 2) ((md.1.x2 + md.1.x1) / 2)
            ((md.1.z2 + md.1.z1) / 2) R)
        0 (model.zip DP)) * (cm * R * h / 2))

/-- Modelled from the spec: the vertical-displacement accumuland
`ΔP · ( sign(zp−zc)·Int3(|zp−zc|, r, R) − (3−4ν)·Int3(zp+zc, r, R)
− 2·zp·Int4(zp+zc, r, R) )`, written with `sign` as the spec writes it
(the source instead divides by `|zp−zc|`). -/
def spec_uz_term (el : Ellip) (poisson DP yp xp zp yc xc zc R : ℝ) : ℝ :=
  let r := Real.sqrt ((yp - yc) ^ 2 + (xp - xc) ^ 2 + (zp - zc) ^ 2)
  DP * (Real.sign (zp - zc) * Int3 el |zp - zc| r R
      - (3 - 4 * poisson) * Int3 el (zp + zc) r R - 2 * zp * Int4 el (zp + zc) r R)

/-! ## Float-value model `FReal`

`geertsma.py` has no division-by-zero guard; numpy floats silently produce
NaN or infinities.  `FReal` models an IEEE-754 double as either NaN, one of
the two infinities, or a finite value (the finite value is an exact real:
rounding and overflow are not modelled, and the sign of zero is not
modelled — finite arithmetic follows the reals, while the special-value
rules `0/0 = NaN`, `x/0 = ±inf` for `x ≠ 0`, `NaN` propagation, and
`inf - inf = NaN` follow IEEE-754). -/

inductive FReal where
  | nan : FReal
  | inf : FReal
  | ninf : FReal
  | fin : ℝ → FReal

namespace FReal

/-- Whether the value is an ordinary (finite) float. -/
def isFinite : FReal → Bool
  | fin _ => true
  | _ => false

/-- IEEE negation. -/
def fneg : FReal → FReal
  | nan => nan
  | inf => ninf
  | ninf => inf
  | fin a => fin (-a)

/-- IEEE addition. -/
def fadd : FReal → FReal → FReal
  | nan, _ => nan
  | _, nan => nan
  | inf, ninf => nan
  | ninf, inf => nan
  | inf, _ => inf
  | _, inf => inf
  | ninf, _ => ninf
  | _, ninf => ninf
  | fin a, fin b => fin (a + b)

/-- IEEE subtraction `x + (-y)`. -/
def fsub (x y : FReal) : FReal := fadd x (fneg y)

/-- IEEE multiplication (`0 * inf = NaN`). -/
def fmul : FReal → FReal → FReal
  | nan, _ => nan
  | _, nan => nan
  | inf, inf => inf
  | inf, ninf => ninf
  | ninf, inf => ninf
  | ninf, ninf => inf
  | inf, fin b => if b = 0 then nan else if 0 < b then inf else ninf
  | fin a, inf => if a = 0 then nan else if 0 < a then inf else ninf
  | ninf, fin b => if b = 0 then nan else if 0 < b then ninf else inf
  | fin a, ninf => if a = 0 then nan else if 0 < a then ninf else inf
  | fin a, fin b => fin (a * b)

/-- IEEE division (`0/0 = NaN`, `x/0 = ±inf` for finite `x ≠ 0` with the
zero treated as `+0`, `x/inf = 0` for finite `x`, `inf/inf = NaN`). -/
def fdiv : FReal → FReal → FReal
  | nan, _ => nan
  | _, nan => nan
  | inf, inf => nan
  | inf, ninf => nan
  | ninf, inf => nan
  | ninf, ninf => nan
  | inf, fin b => if 0 ≤ b then inf else ninf
  | ninf, fin b => if 0 ≤ b then ninf else inf
  | fin _, inf => fin 0
  | fin _, ninf => fin 0
  | fin a, fin b =>
    if b = 0 then (if a = 0 then nan else if 0 < a then inf else ninf)
    else fin (a / b)

/-- Natural powers, as iterated IEEE multiplication. -/
def fpow : FReal → ℕ → FReal
  | _, 0 => fin 1
  | x, n + 1 => fmul (fpow x n) x

/-- `np.sqrt`: NaN for negative or NaN input. -/
def fsqrt : FReal → FReal
  | nan => nan
  | inf => inf
  | ninf => nan
  | fin a => if a < 0 then nan else fin (Real.sqrt a)

/-- `np.abs`. -/
def fabs : FReal → FReal
  | nan => nan
  | inf => inf
  | ninf => inf
  | fin a => fin |a|

/-- `np.heaviside(x, h0)` on floats. -/
def fheaviside : FReal → ℝ → FReal
  | nan, _ => nan
  | inf, _ => fin 1
  | ninf, _ => fin 0
  | fin a, h0 => fin (if a < 0 then 0 else if a = 0 then h0 else 1)

/-- `np.arcsin`: NaN outside `[-1, 1]`. -/
def farcsin : FReal → FReal
  | fin a => if |a| ≤ 1 then fin (Real.arcsin a) else nan
  | _ => nan

/-- `np.sign` on floats. -/
def fsign : FReal → FReal
  | nan => nan
  | inf => fin 1
  | ninf => fin (-1)
  | fin a => fin (if a < 0 then -1 else if a = 0 then 0 else 1)

instance : Neg FReal := ⟨fneg⟩

instance : Add FReal := ⟨fadd⟩

instance : Sub FReal := ⟨fsub⟩

instance : Mul FReal := ⟨fmul⟩

instance : Div FReal := ⟨fdiv⟩

instance : Pow FReal ℕ := ⟨fpow⟩

instance (n : ℕ) : OfNat FReal n := ⟨fin (n : ℝ)⟩

/-- `np.pi` as a float value. -/
def fpi : FReal := fin Real.pi

end FReal

/-- The four scipy elliptic-integral functions, float-valued (scipy returns
`inf` at the singular argument 1, so these are `FReal`-valued). -/
structure EllipF where
  ellipk : FReal → FReal
  ellipe : FReal → FReal
  ellipkinc : FReal → FReal → FReal
  ellipeinc : FReal → FReal → FReal

/-- `Int1` (geertsma.py) under float semantics. -/
def Int1F (el : EllipF) (q r R : FReal) : FReal :=
  let m := 4 * R * r / (q ^ 2 + (r + R) ^ 2)
  let K := el.ellipk m
  let E0 := el.ellipe m
  2 * ((1 - m / 2) * K - E0) / (FReal.fpi * FReal.fsqrt (m * r * R))

/-- `Int2` (geertsma.py) under float semantics. -/
def Int2F (el : EllipF) (q r R : FReal) : FReal :=
  let m := 4 * R * r / (q ^ 2 + (r + R) ^ 2)
  let K := el.ellipk m
  let E0 := el.ellipe m
  q * FReal.fsqrt m * ((1 - m / 2) * E0 / (1 - m) - K) / (2 * FReal.fpi * FReal.fsqrt (r * R) ^ 3)

/-- `Int3` (geertsma.py) under float semantics. -/
def Int3F (el : EllipF) (q r R : FReal) : FReal :=
  let m := 4 * R * r / (q ^ 2 + (r + R) ^ 2)
  let K0 := el.ellipk m
  let K1 := el.ellipk (1 - m)
  let E1 := el.ellipe (1 - m)
  let beta := FReal.farcsin (q / FReal.fsqrt (q ^ 2 + (R - r) ^ 2))
  let K2 := el.ellipkinc beta (1 - m)
  let E2 := el.ellipeinc beta (1 - m)
  let Z := E2 - E1 * K2 / K1
  let lamb := K2 / K1 + 2 * K0 * Z / FReal.fpi
  let I3 := -q * FReal.fsqrt m * K0 / (2 * FReal.fpi * R * FReal.fsqrt (r * R))
    + (FReal.fheaviside (r - R) 0.5 - FReal.fheaviside (R - r) 0.5) * lamb / (2 * R)
    + FReal.fheaviside (R - r) 0.5 / R
  I3

/-- `Int4` (geertsma.py) under float semantics. -/
def Int4F (el : EllipF) (q r R : FReal) : FReal :=
  let m := 4 * R * r / (q ^ 2 + (r + R) ^ 2)
  let K0 := el.ellipk m
  let E0 := el.ellipe m
  FReal.fsqrt m ^ 3 * (R ^ 2 - r ^ 2 - q ^ 2) * E0
      / (8 * FReal.fpi * FReal.fsqrt (r * R) ^ 3 * R * (1 - m))
    + FReal.fsqrt m * K0 / (2 * FReal.fpi * R * FReal.fsqrt (r * R))

/-- The quantity added to `ur[obs]` by one model entry in `geertsma`, under
float semantics. -/
def geertsma_ur_termF (el : EllipF) (poisson DP yp xp zp yc xc zc R : FReal) : FReal :=
  let r := FReal.fsqrt ((yp - yc) ^ 2 + (xp - xc) ^ 2 + (zp - zc) ^ 2)
  let term := -(DP * (Int1F el (FReal.fabs (zp - zc)) r R
      + (3 - 4 * poisson) * Int1F el (zp + zc) r R
      - 2 * zp * Int2F el (zp + zc) r R))
  term

/-- The quantity added to `uz[obs]` by one model entry in `geertsma`, under
float semantics; the first summand is the source's
`(zp-zc)*Int3(|zp-zc|,r,R)/np.abs(zp-zc)`. -/
def geertsma_uz_termF (el : EllipF) (poisson DP yp xp zp yc xc zc R : FReal) : FReal :=
  let r := FReal.fsqrt ((yp - yc) ^ 2 + (xp - xc) ^ 2 + (zp - zc) ^ 2)
  DP * ((zp - zc) * Int3F el (FReal.fabs (zp - zc)) r R / FReal.fabs (zp - zc)
      - (3 - 4 * poisson) * Int3F el (zp + zc) r R - 2 * zp * Int4F el (zp + zc) r R)

/-- A model entry of `geertsma` under float semantics: the six-column prism
row as float values. -/
structure PrismF where
  y1 : FReal
  y2 : FReal
  x1 : FReal
  x2 : FReal
  z2 : FReal
  z1 : FReal

/-- `geertsma` (geertsma.py) under float semantics. -/
def geertsmaF (el : EllipF) (coordinates : List (FReal × FReal × FReal))
    (model : List PrismF) (DP : List FReal) (cm poisson R h : FReal) :
    List FReal × List FReal :=
  (coordinates.map fun c =>
      (List.foldl
        (fun acc md =>
          acc + geertsma_ur_termF el poisson md.2 c.1 c.2.1 c.2.2
            ((md.1.y2 + md.1.y1) / 2) ((md.1.x2 + md.1.x1) / 2)
            ((md.1.z2 + md.1.z1) / 2) R)
        0 (model.zip DP)) * (cm * R * h / 2),
   coordinates.map fun c =>
      (List.foldl
        (fun acc md =>
          acc + geertsma_uz_termF el poisson md.2 c.1 c.2.1 c.2.2
            ((md.1.y2 + md.1.y1) / 2) ((md.1.x2 + md.1.x1) / 2)
            ((md.1.z2 + md.1.z1) / 2) R)
        0 (model.zip DP)) * (cm * R * h / 2))

/-- Modelled from the spec: the vertical-displacement accumuland
`ΔP · ( sign(zp−zc)·Int3(|zp−zc|, r, R) − (3−4ν)·Int3(zp+zc, r, R)
− 2·zp·Int4(zp+zc, r, R) )`, written with `sign` as the spec does (the
source instead divides by `|zp−zc|`). -/
def spec_uz_termF (el : EllipF) (poisson DP yp xp zp yc xc zc R : FReal) : FReal :=
  let r := FReal.fsqrt ((yp - yc) ^ 2 + (xp - xc) ^ 2 + (zp - zc) ^ 2)
  DP * (FReal.fsign (zp - zc) * Int3F el (FReal.fabs (zp - zc)) r R
      - (3 - 4 * poisson) * Int3F el (zp + zc) r R - 2 * zp * Int4F el (zp + zc) r R)

/-- Constant-one elliptic-function bundle, used to instantiate theorems that
are parametric in the (external, scipy-provided) elliptic integrals. -/
def ellip_one : Ellip := ⟨fun _ => 1, fun _ => 1, fun _ _ => 1, fun _ _ => 1⟩

/-- Constant-one float-valued elliptic-function bundle. -/
def ellipF_one : EllipF :=
  ⟨fun _ => .fin 1, fun _ => .fin 1, fun _ _ => .fin 1, fun _ _ => .fin 1⟩

end

/-! ## Helper lemmas -/

section Helpers

/-- Left-fold accumulation of a sum equals the list sum. -/
theorem foldl_add_eq {α : Type*} (f : α → ℝ) (l : List α) :
    ∀ acc : ℝ, List.foldl (fun a x => a + f x) acc l = acc + (l.map f).sum := by
  induction l with
  | nil => intro acc; simp
  | cons x xs ih => intro acc; simp [ih]; ring

/-- `_check_prisms` succeeds on well-ordered prisms. -/
theorem check_prisms_ok_of_valid (prisms : List Prism)
    (h : ∀ pr ∈ prisms, pr.y1 ≤ pr.y2 ∧ pr.x1 ≤ pr.x2 ∧ pr.z1 ≤ pr.z2) :
    check_prisms prisms = .ok () := by
  have hy : prisms.any badY = false := by
    rw [List.any_eq_false]; intro p hp; simp [badY]; exact (h p hp).1
  have hx : prisms.any badX = false := by
    rw [List.any_eq_false]; intro p hp; simp [badX]; exact (h p hp).2.1
  have hz : prisms.any badZ = false := by
    rw [List.any_eq_false]; intro p hp; simp [badZ]; exact (h p hp).2.2
  simp [check_prisms, hy, hx, hz]

/-- A name outside the fixed 18-entry dictionary is unknown to
`kernel_of`. -/
theorem kernel_of_eq_none_of_not_mem (name : String)
    (h : name ∉ (["d_x1", "d_y1", "d_z1", "d_x2", "d_y2", "d_z2", "d_xz2",
      "d_yz2", "d_zz2", "s_xz1", "s_yz1", "s_zz1", "s_xz2", "s_yz2",
      "s_zz2", "s_xzz2", "s_yzz2", "s_zzz2"] : List String)) :
    kernel_of name = none := by
  unfold kernel_of
  rw [if_neg (fun e => h (by rw [e]; decide)),
    if_neg (fun e => h (by rw [e]; decide)),
    if_neg (fun e => h (by rw [e]; decide)),
    if_neg (fun e => h (by rw [e]; decide)),
    if_neg (fun e => h (by rw [e]; decide)),
    if_neg (fun e => h (by rw [e]; decide)),
    if_neg (fun e => h (by rw [e]; decide)),
    if_neg (fun e => h (by rw [e]; decide)),
    if_neg (fun e => h (by rw [e]; decide)),
    if_neg (fun e => h (by rw [e]; decide)),
    if_neg (fun e => h (by rw [e]; decide)),
    if_neg (fun e => h (by rw [e]; decide)),
    if_neg (fun e => h (by rw [e]; decide)),
    if_neg (fun e => h (by rw [e]; decide)),
    if_neg (fun e => h (by rw [e]; decide)),
    if_neg (fun e => h (by rw [e]; decide)),
    if_neg (fun e => h (by rw [e]; decide)),
    if_neg (fun e => h (by rw [e]; decide))]

/-- The corner loop evaluates to the triple alternating corner sum. -/
theorem cornerLoop_eq_sum (K : Kern) (p : ℝ) (pr : Prism) (yp xp zp : ℝ) :
    cornerLoop K p pr yp xp zp =
      ∑ i ∈ Finset.range 2, ∑ j ∈ Finset.range 2, ∑ k ∈ Finset.range 2,
        p * (-1 : ℝ) ^ (i + j + k) *
          K (prismY pr i) (prismX pr j) (prismZ pr k)
            (0.5 * (pr.z2 + pr.z1)) yp xp zp := by
  simp [cornerLoop, Finset.sum_range_succ]
  ring

/-- The per-point prism loop evaluates to the sum, over prisms paired with
their pressures, of corner sums (with the mid-depth written as the claim
writes it). -/
theorem jit_point_eq_sum (K : Kern) (prisms : List Prism) (pressure : List ℝ)
    (yp xp zp : ℝ) :
    jit_point K prisms pressure yp xp zp =
      ((prisms.zip pressure).map fun pp =>
        ∑ i ∈ Finset.range 2, ∑ j ∈ Finset.range 2, ∑ k ∈ Finset.range 2,
          pp.2 * (-1 : ℝ) ^ (i + j + k) *
            K (prismY pp.1 i) (prismX pp.1 j) (prismZ pp.1 k)
              ((pp.1.z1 + pp.1.z2) / 2) yp xp zp).sum := by
  have hfun : (fun (pp : Prism × ℝ) => cornerLoop K pp.2 pp.1 yp xp zp)
      = fun (pp : Prism × ℝ) =>
          ∑ i ∈ Finset.range 2, ∑ j ∈ Finset.range 2, ∑ k ∈ Finset.range 2,
            pp.2 * (-1 : ℝ) ^ (i + j + k) *
              K (prismY pp.1 i) (prismX pp.1 j) (prismZ pp.1 k)
                ((pp.1.z1 + pp.1.z2) / 2) yp xp zp := by
    funext pp
    rw [cornerLoop_eq_sum]
    rw [show (0.5 * (pp.1.z2 + pp.1.z1)) = ((pp.1.z1 + pp.1.z2) / 2) from by ring]
  rw [jit_point, foldl_add_eq, zero_add, hfun]

end Helpers

/-! ## Claim C7 -/

/-- C7: for nonzero denominator `safe_atan2` returns
`arctan(numerator/denominator)`; for zero denominator it returns `+π/2`,
`−π/2` or `0` according to the sign of the numerator. -/
theorem c7_safe_atan2_cases (numerator denominator : ℝ) :
    (denominator ≠ 0 →
      safe_atan2 numerator denominator = Real.arctan (numerator / denominator)) ∧
    (denominator = 0 →
      (numerator > 0 → safe_atan2 numerator denominator = Real.pi / 2) ∧
      (numerator < 0 → safe_atan2 numerator denominator = -(Real.pi) / 2) ∧
      (numerator = 0 → safe_atan2 numerator denominator = 0)) := by
  constructor
  · intro h; simp [safe_atan2, h]
  · intro h
    subst h
    refine ⟨?_, ?_, ?_⟩ <;> intro h2
    · simp [safe_atan2, h2]
    · simp [safe_atan2, h2, not_lt.2 (le_of_lt h2), asymm h2]
    · simp [safe_atan2, h2]

/-- Witness for C7 at concrete inputs. -/
theorem c7_safe_atan2_cases_witness :
    safe_atan2 1 2 = Real.arctan (1 / 2) ∧ safe_atan2 1 0 = Real.pi / 2 ∧
      safe_atan2 (-1) 0 = -(Real.pi) / 2 ∧ safe_atan2 0 0 = 0 :=
  ⟨(c7_safe_atan2_cases 1 2).1 (by norm_num),
   ((c7_safe_atan2_cases 1 0).2 rfl).1 (by norm_num),
   ((c7_safe_atan2_cases (-1) 0).2 rfl).2.1 (by norm_num),
   ((c7_safe_atan2_cases 0 0).2 rfl).2.2 rfl⟩

/-! ## Claim C8 -/

/-- C8: for a kernel selector outside the fixed 18-entry set,
`field_component` fails with the unknown-kernel error, regardless of
`disable_checks` and of whatever is wrong with the prisms or pressure. -/
theorem c8_unknown_kernel_precedence (coordinates : List (ℝ × ℝ × ℝ))
    (prisms : List Prism) (pressure : List ℝ) (poisson young : ℝ)
    (name : String) (disable_checks : Bool)
    (h : name ∉ (["d_x1", "d_y1", "d_z1", "d_x2", "d_y2", "d_z2", "d_xz2",
      "d_yz2", "d_zz2", "s_xz1", "s_yz1", "s_zz1", "s_xz2", "s_yz2",
      "s_zz2", "s_xzz2", "s_yzz2", "s_zzz2"] : List String)) :
    field_component coordinates prisms pressure poisson young name disable_checks
      = .error (.unknownKernel name) := by
  have hnone : kernel_of name = none := kernel_of_eq_none_of_not_mem name h
  simp [field_component, hnone]

/-- Witness for C8: the bad selector from the repository's own test, with
`disable_checks` set, a reversed prism and a mismatched pressure array. -/
theorem c8_unknown_kernel_precedence_witness :
    field_component [(0, 0, 0)] [⟨1, 0, 0, 1, 1, 0⟩] [] 0.25 3300 "chdjd" true
      = .error (.unknownKernel "chdjd") :=
  c8_unknown_kernel_precedence [(0, 0, 0)] [⟨1, 0, 0, 1, 1, 0⟩] [] 0.25 3300
    "chdjd" true (by decide)

/-! ## Claim C3 -/

/-- C3 counterexample: a two-row array whose first row violates the `y`
check and whose second row violates the `x` check is rejected with a message
that reports only the `y` check and only the first row — the second
offending row (shown malformed by the second conjunct) is absent, so the
message does not report all bad rows across all three violation kinds. -/
theorem c3_first_kind_only_counterexample :
    check_prisms [⟨1, 0, 0, 1, 1, 0⟩, ⟨0, 1, 1, 0, 1, 0⟩]
      = .error ⟨.y, [⟨1, 0, 0, 1, 1, 0⟩]⟩ ∧
    (Prism.mk 0 1 1 0 1 0).x1 > (Prism.mk 0 1 1 0 1 0).x2 := by
  have h1 : badY ⟨1, 0, 0, 1, 1, 0⟩ = true := by
    simp only [badY, decide_eq_true_eq]; norm_num
  have h2 : badY ⟨0, 1, 1, 0, 1, 0⟩ = false := by
    simp only [badY, decide_eq_false_iff_not]; norm_num
  refine ⟨?_, by norm_num⟩
  simp [check_prisms, h1, h2, List.filter]

/-- C3 amended: an array containing a malformed row is rejected, and the
error message identifies one boundary check together with every row of the
array violating that check (the first violated check in the order `y`, `x`,
`z`; rows violating only a later check are not included). -/
theorem c3_check_prisms_reports_first_kind (prisms : List Prism)
    (h : ∃ p ∈ prisms, p.y1 > p.y2 ∨ p.x1 > p.x2 ∨ p.z1 > p.z2) :
    ∃ k : BoundKind, check_prisms prisms = .error ⟨k, prisms.filter (violates k)⟩ ∧
      prisms.filter (violates k) ≠ [] := by
  have hne : ∀ (f : Prism → Bool), prisms.any f = true → prisms.filter f ≠ [] := by
    intro f hf
    obtain ⟨p, hp, hfp⟩ := List.any_eq_true.1 hf
    exact List.ne_nil_of_mem (List.mem_filter.2 ⟨hp, hfp⟩)
  by_cases hy : prisms.any badY = true
  · exact ⟨.y, by simp [check_prisms, hy, violates], hne badY hy⟩
  · have hy' := Bool.not_eq_true _ ▸ hy
    by_cases hx : prisms.any badX = true
    · exact ⟨.x, by simp [check_prisms, hy', hx, violates]
        , hne badX hx⟩
    · have hx' := Bool.not_eq_true _ ▸ hx
      by_cases hz : prisms.any badZ = true
      · exact ⟨.z, by simp [check_prisms, hy', hx', hz, violates], hne badZ hz⟩
      · exfalso
        obtain ⟨p, hp, hbad⟩ := h
        have hy2 := List.any_eq_false.1 (Bool.not_eq_true _ ▸ hy) p hp
        have hx2 := List.any_eq_false.1 (Bool.not_eq_true _ ▸ hx) p hp
        have hz2 := List.any_eq_false.1 (Bool.not_eq_true _ ▸ hz) p hp
        simp [badY, badX, badZ] at hy2 hx2 hz2
        rcases hbad with hb | hb | hb
        · exact absurd hb (not_lt.2 hy2)
        · exact absurd hb (not_lt.2 hx2)
        · exact absurd hb (not_lt.2 hz2)

/-- Witness for the amended C3 at a concrete malformed array. -/
theorem c3_check_prisms_reports_first_kind_witness :
    ∃ k : BoundKind,
      check_prisms [⟨1, 0, 0, 1, 1, 0⟩, ⟨0, 1, 1, 0, 1, 0⟩]
        = .error ⟨k, [⟨1, 0, 0, 1, 1, 0⟩, ⟨0, 1, 1, 0, 1, 0⟩].filter (violates k)⟩ ∧
      [⟨1, 0, 0, 1, 1, 0⟩, ⟨0, 1, 1, 0, 1, 0⟩].filter (violates k) ≠ [] :=
  c3_check_prisms_reports_first_kind _
    ⟨⟨1, 0, 0, 1, 1, 0⟩, by simp, Or.inl (by norm_num)⟩

/-! ## Claim C10 -/

/-- C10: a prism with zero extent along some axis (and otherwise
well-ordered bounds) passes `_check_prisms`, and its corner-loop
contribution to the accumulated sum is exactly zero for every kernel
function, pressure and observation point. -/
theorem c10_degenerate_prism (pr : Prism)
    (hvalid : pr.y1 ≤ pr.y2 ∧ pr.x1 ≤ pr.x2 ∧ pr.z1 ≤ pr.z2)
    (hdeg : pr.y1 = pr.y2 ∨ pr.x1 = pr.x2 ∨ pr.z1 = pr.z2) :
    check_prisms [pr] = .ok () ∧
      ∀ (K : Kern) (p yp xp zp : ℝ), cornerLoop K p pr yp xp zp = 0 := by
  constructor
  · refine check_prisms_ok_of_valid _ ?_
    intro q hq
    rw [List.mem_singleton] at hq
    subst hq
    exact hvalid
  · intro K p yp xp zp
    obtain ⟨y1, y2, x1, x2, z2, z1⟩ := pr
    simp only [cornerLoop, prismY, prismX, prismZ, List.foldl_cons, List.foldl_nil]
    rcases hdeg with h | h | h <;> simp_all <;> ring

/-- Witness for C10 at a concrete flat prism and kernel. -/
theorem c10_degenerate_prism_witness :
    check_prisms [⟨0, 0, 0, 1, 1, 0⟩] = .ok () ∧
      cornerLoop kernel_d_x1 5 ⟨0, 0, 0, 1, 1, 0⟩ 1 2 3 = 0 :=
  ⟨(c10_degenerate_prism ⟨0, 0, 0, 1, 1, 0⟩
      ⟨by norm_num, by norm_num, by norm_num⟩ (Or.inl rfl)).1,
   (c10_degenerate_prism ⟨0, 0, 0, 1, 1, 0⟩
      ⟨by norm_num, by norm_num, by norm_num⟩ (Or.inl rfl)).2 kernel_d_x1 5 1 2 3⟩

/-! ## Claim C1 -/

/-- C1: with a recognized kernel, a matching pressure array and valid
prisms, `field_component` returns, at each observation point, the sum over
all prisms and over the 8 corner combinations (`i, j, k ∈ {0,1}` selecting
the bound along y, x, z) of
`pressure[prism] * (-1)^(i+j+k) * kernel(y, x, z, (z1+z2)/2, yp, xp, zp)`,
multiplied by `-Cm(poisson, young)/(4π)`. -/
theorem c1_field_component_formula (coordinates : List (ℝ × ℝ × ℝ))
    (prisms : List Prism) (pressure : List ℝ) (poisson young : ℝ)
    (name : String) (K : Kern)
    (hname : kernel_of name = some K)
    (hlen : pressure.length = prisms.length)
    (hvalid : ∀ pr ∈ prisms, pr.y1 ≤ pr.y2 ∧ pr.x1 ≤ pr.x2 ∧ pr.z1 ≤ pr.z2) :
    field_component coordinates prisms pressure poisson young name false =
      .ok (coordinates.map fun c =>
        ((prisms.zip pressure).map fun pp =>
          ∑ i ∈ Finset.range 2, ∑ j ∈ Finset.range 2, ∑ k ∈ Finset.range 2,
            pp.2 * (-1 : ℝ) ^ (i + j + k) *
              K (prismY pp.1 i) (prismX pp.1 j) (prismZ pp.1 k)
                ((pp.1.z1 + pp.1.z2) / 2) c.1 c.2.1 c.2.2).sum
          * (-(Cm poisson young) / (4 * Real.pi))) := by
  have hok : check_prisms prisms = .ok () := check_prisms_ok_of_valid prisms hvalid
  have hrc : run_checks false prisms pressure = .ok () := by
    simp [run_checks, hlen, hok]
  simp only [field_component, hname, hrc, jit_field_component, List.map_map]
  refine congrArg Except.ok ?_
  refine congrArg (fun f => List.map f coordinates) ?_
  funext c
  simp only [Function.comp_apply]
  rw [jit_point_eq_sum]

/-- Witness for C1 at a concrete point, prism and kernel. -/
theorem c1_field_component_formula_witness :
    field_component [((1 : ℝ), (2 : ℝ), (3 : ℝ))] [⟨0, 1, 0, 1, 1, 0⟩] [2]
        0.25 3300 "s_xz1" false
      = .ok ([((1 : ℝ), (2 : ℝ), (3 : ℝ))].map fun c =>
          (([(⟨0, 1, 0, 1, 1, 0⟩ : Prism)].zip [(2 : ℝ)]).map fun pp =>
            ∑ i ∈ Finset.range 2, ∑ j ∈ Finset.range 2, ∑ k ∈ Finset.range 2,
              pp.2 * (-1 : ℝ) ^ (i + j + k) *
                kernel_s_xz1 (prismY pp.1 i) (prismX pp.1 j) (prismZ pp.1 k)
                  ((pp.1.z1 + pp.1.z2) / 2) c.1 c.2.1 c.2.2).sum
            * (-(Cm 0.25 3300) / (4 * Real.pi))) :=
  c1_field_component_formula _ _ _ _ _ _ kernel_s_xz1 (by simp [kernel_of]) rfl
    (by
      intro pr hpr
      rw [List.mem_singleton] at hpr
      subst hpr
      exact ⟨by norm_num, by norm_num, by norm_num⟩)

/-! ## Claim C2 -/

/-- Splitting a prism at `ya` along y splits its corner sum, for any
kernel (the mid-depth is unchanged). -/
theorem cornerLoop_split_y (K : Kern) (p y1 ya y2 x1 x2 z2 z1 yp xp zp : ℝ) :
    cornerLoop K p ⟨y1, ya, x1, x2, z2, z1⟩ yp xp zp
      + cornerLoop K p ⟨ya, y2, x1, x2, z2, z1⟩ yp xp zp
      = cornerLoop K p ⟨y1, y2, x1, x2, z2, z1⟩ yp xp zp := by
  simp [cornerLoop, prismY, prismX, prismZ]
  ring

/-- Splitting a prism at `xa` along x splits its corner sum, for any
kernel. -/
theorem cornerLoop_split_x (K : Kern) (p y1 y2 x1 xa x2 z2 z1 yp xp zp : ℝ) :
    cornerLoop K p ⟨y1, y2, x1, xa, z2, z1⟩ yp xp zp
      + cornerLoop K p ⟨y1, y2, xa, x2, z2, z1⟩ yp xp zp
      = cornerLoop K p ⟨y1, y2, x1, x2, z2, z1⟩ yp xp zp := by
  simp [cornerLoop, prismY, prismX, prismZ]
  ring

/-- Splitting a prism at `za` along z splits its corner sum for a kernel
that ignores its mid-depth argument (the 1st-system kernels). -/
theorem cornerLoop_split_z_const (K : Kern) (G : ℝ → ℝ → ℝ → ℝ → ℝ → ℝ → ℝ)
    (hK : ∀ y x z zc yp xp zp, K y x z zc yp xp zp = G y x z yp xp zp)
    (p y1 y2 x1 x2 z1 za z2 yp xp zp : ℝ) :
    cornerLoop K p ⟨y1, y2, x1, x2, za, z1⟩ yp xp zp
      + cornerLoop K p ⟨y1, y2, x1, x2, z2, za⟩ yp xp zp
      = cornerLoop K p ⟨y1, y2, x1, x2, z2, z1⟩ yp xp zp := by
  simp [cornerLoop, prismY, prismX, prismZ]
  simp only [hK]
  ring

/-- Splitting a prism at `za` along z splits its corner sum for a kernel
that depends on its z and mid-depth arguments only through `z - 2*zc` (the
2nd-system kernels): each sub-prism's own mid-depth sends its z-bounds
`{a, b}` to `{-b, -a}`, so the image bounds telescope. -/
theorem cornerLoop_split_z_shift (K : Kern) (G : ℝ → ℝ → ℝ → ℝ → ℝ → ℝ → ℝ)
    (hK : ∀ y x z zc yp xp zp, K y x z zc yp xp zp = G y x (z - 2 * zc) yp xp zp)
    (p y1 y2 x1 x2 z1 za z2 yp xp zp : ℝ) :
    cornerLoop K p ⟨y1, y2, x1, x2, za, z1⟩ yp xp zp
      + cornerLoop K p ⟨y1, y2, x1, x2, z2, za⟩ yp xp zp
      = cornerLoop K p ⟨y1, y2, x1, x2, z2, z1⟩ yp xp zp := by
  have h1 : ∀ a b : ℝ, b - 2 * (0.5 * (a + b)) = -a := fun a b => by ring
  have h2 : ∀ a b : ℝ, a - 2 * (0.5 * (a + b)) = -b := fun a b => by ring
  simp [cornerLoop, prismY, prismX, prismZ]
  simp only [hK]
  simp only [h1, h2]
  ring

/-- `kernel_d_x1` ignores the mid-depth argument. -/
theorem kernel_d_x1_zc_free :
    ∃ G : ℝ → ℝ → ℝ → ℝ → ℝ → ℝ → ℝ, ∀ y x z zc yp xp zp, kernel_d_x1 y x z zc yp xp zp = G y x z yp xp zp :=
  ⟨fun y x z yp xp zp => kernel_d_x1 y x z 0 yp xp zp, fun _ _ _ _ _ _ _ => rfl⟩

/-- `kernel_d_y1` ignores the mid-depth argument. -/
theorem kernel_d_y1_zc_free :
    ∃ G : ℝ → ℝ → ℝ → ℝ → ℝ → ℝ → ℝ, ∀ y x z zc yp xp zp, kernel_d_y1 y x z zc yp xp zp = G y x z yp xp zp :=
  ⟨fun y x z yp xp zp => kernel_d_y1 y x z 0 yp xp zp, fun _ _ _ _ _ _ _ => rfl⟩

/-- `kernel_d_z1` ignores the mid-depth argument. -/
theorem kernel_d_z1_zc_free :
    ∃ G : ℝ → ℝ → ℝ → ℝ → ℝ → ℝ → ℝ, ∀ y x z zc yp xp zp, kernel_d_z1 y x z zc yp xp zp = G y x z yp xp zp :=
  ⟨fun y x z yp xp zp => kernel_d_z1 y x z 0 yp xp zp, fun _ _ _ _ _ _ _ => rfl⟩

/-- `kernel_s_xz1` ignores the mid-depth argument. -/
theorem kernel_s_xz1_zc_free :
    ∃ G : ℝ → ℝ → ℝ → ℝ → ℝ → ℝ → ℝ, ∀ y x z zc yp xp zp, kernel_s_xz1 y x z zc yp xp zp = G y x z yp xp zp :=
  ⟨fun y x z yp xp zp => kernel_s_xz1 y x z 0 yp xp zp, fun _ _ _ _ _ _ _ => rfl⟩

/-- `kernel_s_yz1` ignores the mid-depth argument. -/
theorem kernel_s_yz1_zc_free :
    ∃ G : ℝ → ℝ → ℝ → ℝ → ℝ → ℝ → ℝ, ∀ y x z zc yp xp zp, kernel_s_yz1 y x z zc yp xp zp = G y x z yp xp zp :=
  ⟨fun y x z yp xp zp => kernel_s_yz1 y x z 0 yp xp zp, fun _ _ _ _ _ _ _ => rfl⟩

/-- `kernel_s_zz1` ignores the mid-depth argument. -/
theorem kernel_s_zz1_zc_free :
    ∃ G : ℝ → ℝ → ℝ → ℝ → ℝ → ℝ → ℝ, ∀ y x z zc yp xp zp, kernel_s_zz1 y x z zc yp xp zp = G y x z yp xp zp :=
  ⟨fun y x z yp xp zp => kernel_s_zz1 y x z 0 yp xp zp, fun _ _ _ _ _ _ _ => rfl⟩

/-- `kernel_d_x2` depends on z and mid-depth only through `z - 2*zc`. -/
theorem kernel_d_x2_zc_shift :
    ∃ G : ℝ → ℝ → ℝ → ℝ → ℝ → ℝ → ℝ, ∀ y x z zc yp xp zp,
      kernel_d_x2 y x z zc yp xp zp = G y x (z - 2 * zc) yp xp zp := by
  refine ⟨fun y x w yp xp zp => kernel_d_x2 y x w 0 yp xp zp,
    fun y x z zc yp xp zp => ?_⟩
  show kernel_d_x2 y x z zc yp xp zp = kernel_d_x2 y x (z - 2 * zc) 0 yp xp zp
  simp only [kernel_d_x2]
  rw [show z - zp - 2 * zc = z - 2 * zc - zp - 2 * 0 from by ring]

/-- `kernel_d_y2` depends on z and mid-depth only through `z - 2*zc`. -/
theorem kernel_d_y2_zc_shift :
    ∃ G : ℝ → ℝ → ℝ → ℝ → ℝ → ℝ → ℝ, ∀ y x z zc yp xp zp,
      kernel_d_y2 y x z zc yp xp zp = G y x (z - 2 * zc) yp xp zp := by
  refine ⟨fun y x w yp xp zp => kernel_d_y2 y x w 0 yp xp zp,
    fun y x z zc yp xp zp => ?_⟩
  show kernel_d_y2 y x z zc yp xp zp = kernel_d_y2 y x (z - 2 * zc) 0 yp xp zp
  simp only [kernel_d_y2]
  rw [show z - zp - 2 * zc = z - 2 * zc - zp - 2 * 0 from by ring]

/-- `kernel_d_z2` depends on z and mid-depth only through `z - 2*zc`. -/
theorem kernel_d_z2_zc_shift :
    ∃ G : ℝ → ℝ → ℝ → ℝ → ℝ → ℝ → ℝ, ∀ y x z zc yp xp zp,
      kernel_d_z2 y x z zc yp xp zp = G y x (z - 2 * zc) yp xp zp := by
  refine ⟨fun y x w yp xp zp => kernel_d_z2 y x w 0 yp xp zp,
    fun y x z zc yp xp zp => ?_⟩
  show kernel_d_z2 y x z zc yp xp zp = kernel_d_z2 y x (z - 2 * zc) 0 yp xp zp
  simp only [kernel_d_z2]
  rw [show z - zp - 2 * zc = z - 2 * zc - zp - 2 * 0 from by ring]

/-- `kernel_d_xz2` depends on z and mid-depth only through `z - 2*zc`. -/
theorem kernel_d_xz2_zc_shift :
    ∃ G : ℝ → ℝ → ℝ → ℝ → ℝ → ℝ → ℝ, ∀ y x z zc yp xp zp,
      kernel_d_xz2 y x z zc yp xp zp = G y x (z - 2 * zc) yp xp zp := by
  refine ⟨fun y x w yp xp zp => kernel_d_xz2 y x w 0 yp xp zp,
    fun y x z zc yp xp zp => ?_⟩
  show kernel_d_xz2 y x z zc yp xp zp = kernel_d_xz2 y x (z - 2 * zc) 0 yp xp zp
  simp only [kernel_d_xz2]
  rw [show z - zp - 2 * zc = z - 2 * zc - zp - 2 * 0 from by ring]

/-- `kernel_d_yz2` depends on z and mid-depth only through `z - 2*zc`. -/
theorem kernel_d_yz2_zc_shift :
    ∃ G : ℝ → ℝ → ℝ → ℝ → ℝ → ℝ → ℝ, ∀ y x z zc yp xp zp,
      kernel_d_yz2 y x z zc yp xp zp = G y x (z - 2 * zc) yp xp zp := by
  refine ⟨fun y x w yp xp zp => kernel_d_yz2 y x w 0 yp xp zp,
    fun y x z zc yp xp zp => ?_⟩
  show kernel_d_yz2 y x z zc yp xp zp = kernel_d_yz2 y x (z - 2 * zc) 0 yp xp zp
  simp only [kernel_d_yz2]
  rw [show z - zp - 2 * zc = z - 2 * zc - zp - 2 * 0 from by ring]

/-- `kernel_d_zz2` depends on z and mid-depth only through `z - 2*zc`. -/
theorem kernel_d_zz2_zc_shift :
    ∃ G : ℝ → ℝ → ℝ → ℝ → ℝ → ℝ → ℝ, ∀ y x z zc yp xp zp,
      kernel_d_zz2 y x z zc yp xp zp = G y x (z - 2 * zc) yp xp zp := by
  refine ⟨fun y x w yp xp zp => kernel_d_zz2 y x w 0 yp xp zp,
    fun y x z zc yp xp zp => ?_⟩
  show kernel_d_zz2 y x z zc yp xp zp = kernel_d_zz2 y x (z - 2 * zc) 0 yp xp zp
  simp only [kernel_d_zz2]
  rw [show z - zp - 2 * zc = z - 2 * zc - zp - 2 * 0 from by ring]

/-- `kernel_s_xz2` depends on z and mid-depth only through `z - 2*zc`. -/
theorem kernel_s_xz2_zc_shift :
    ∃ G : ℝ → ℝ → ℝ → ℝ → ℝ → ℝ → ℝ, ∀ y x z zc yp xp zp,
      kernel_s_xz2 y x z zc yp xp zp = G y x (z - 2 * zc) yp xp zp := by
  refine ⟨fun y x w yp xp zp => kernel_s_xz2 y x w 0 yp xp zp,
    fun y x z zc yp xp zp => ?_⟩
  show kernel_s_xz2 y x z zc yp xp zp = kernel_s_xz2 y x (z - 2 * zc) 0 yp xp zp
  simp only [kernel_s_xz2]
  rw [show z - zp - 2 * zc = z - 2 * zc - zp - 2 * 0 from by ring]

/-- `kernel_s_yz2` depends on z and mid-depth only through `z - 2*zc`. -/
theorem kernel_s_yz2_zc_shift :
    ∃ G : ℝ → ℝ → ℝ → ℝ → ℝ → ℝ → ℝ, ∀ y x z zc yp xp zp,
      kernel_s_yz2 y x z zc yp xp zp = G y x (z - 2 * zc) yp xp zp := by
  refine ⟨fun y x w yp xp zp => kernel_s_yz2 y x w 0 yp xp zp,
    fun y x z zc yp xp zp => ?_⟩
  show kernel_s_yz2 y x z zc yp xp zp = kernel_s_yz2 y x (z - 2 * zc) 0 yp xp zp
  simp only [kernel_s_yz2]
  rw [show z - zp - 2 * zc = z - 2 * zc - zp - 2 * 0 from by ring]

/-- `kernel_s_zz2` depends on z and mid-depth only through `z - 2*zc`. -/
theorem kernel_s_zz2_zc_shift :
    ∃ G : ℝ → ℝ → ℝ → ℝ → ℝ → ℝ → ℝ, ∀ y x z zc yp xp zp,
      kernel_s_zz2 y x z zc yp xp zp = G y x (z - 2 * zc) yp xp zp := by
  refine ⟨fun y x w yp xp zp => kernel_s_zz2 y x w 0 yp xp zp,
    fun y x z zc yp xp zp => ?_⟩
  show kernel_s_zz2 y x z zc yp xp zp = kernel_s_zz2 y x (z - 2 * zc) 0 yp xp zp
  simp only [kernel_s_zz2]
  rw [show z - zp - 2 * zc = z - 2 * zc - zp - 2 * 0 from by ring]

/-- `kernel_s_xzz2` depends on z and mid-depth only through `z - 2*zc`. -/
theorem kernel_s_xzz2_zc_shift :
    ∃ G : ℝ → ℝ → ℝ → ℝ → ℝ → ℝ → ℝ, ∀ y x z zc yp xp zp,
      kernel_s_xzz2 y x z zc yp xp zp = G y x (z - 2 * zc) yp xp zp := by
  refine ⟨fun y x w yp xp zp => kernel_s_xzz2 y x w 0 yp xp zp,
    fun y x z zc yp xp zp => ?_⟩
  show kernel_s_xzz2 y x z zc yp xp zp = kernel_s_xzz2 y x (z - 2 * zc) 0 yp xp zp
  simp only [kernel_s_xzz2]
  rw [show z - zp - 2 * zc = z - 2 * zc - zp - 2 * 0 from by ring]

/-- `kernel_s_yzz2` depends on z and mid-depth only through `z - 2*zc`. -/
theorem kernel_s_yzz2_zc_shift :
    ∃ G : ℝ → ℝ → ℝ → ℝ → ℝ → ℝ → ℝ, ∀ y x z zc yp xp zp,
      kernel_s_yzz2 y x z zc yp xp zp = G y x (z - 2 * zc) yp xp zp := by
  refine ⟨fun y x w yp xp zp => kernel_s_yzz2 y x w 0 yp xp zp,
    fun y x z zc yp xp zp => ?_⟩
  show kernel_s_yzz2 y x z zc yp xp zp = kernel_s_yzz2 y x (z - 2 * zc) 0 yp xp zp
  simp only [kernel_s_yzz2]
  rw [show z - zp - 2 * zc = z - 2 * zc - zp - 2 * 0 from by ring]

/-- `kernel_s_zzz2` depends on z and mid-depth only through `z - 2*zc`. -/
theorem kernel_s_zzz2_zc_shift :
    ∃ G : ℝ → ℝ → ℝ → ℝ → ℝ → ℝ → ℝ, ∀ y x z zc yp xp zp,
      kernel_s_zzz2 y x z zc yp xp zp = G y x (z - 2 * zc) yp xp zp := by
  refine ⟨fun y x w yp xp zp => kernel_s_zzz2 y x w 0 yp xp zp,
    fun y x z zc yp xp zp => ?_⟩
  show kernel_s_zzz2 y x z zc yp xp zp = kernel_s_zzz2 y x (z - 2 * zc) 0 yp xp zp
  simp only [kernel_s_zzz2]
  rw [show z - zp - 2 * zc = z - 2 * zc - zp - 2 * 0 from by ring]

/-- Every kernel in the dictionary either ignores the mid-depth or depends
on it only through `z - 2*zc`. -/
theorem kernel_of_shift_or_free (name : String) (K : Kern)
    (h : kernel_of name = some K) :
    (∃ G : ℝ → ℝ → ℝ → ℝ → ℝ → ℝ → ℝ, ∀ y x z zc yp xp zp, K y x z zc yp xp zp = G y x z yp xp zp) ∨
    (∃ G : ℝ → ℝ → ℝ → ℝ → ℝ → ℝ → ℝ, ∀ y x z zc yp xp zp, K y x z zc yp xp zp = G y x (z - 2 * zc) yp xp zp) := by
  unfold kernel_of at h
  by_cases e1 : name = "d_x1"
  · rw [if_pos e1] at h; injection h with h; subst h; exact Or.inl kernel_d_x1_zc_free
  rw [if_neg e1] at h
  by_cases e2 : name = "d_y1"
  · rw [if_pos e2] at h; injection h with h; subst h; exact Or.inl kernel_d_y1_zc_free
  rw [if_neg e2] at h
  by_cases e3 : name = "d_z1"
  · rw [if_pos e3] at h; injection h with h; subst h; exact Or.inl kernel_d_z1_zc_free
  rw [if_neg e3] at h
  by_cases e4 : name = "d_x2"
  · rw [if_pos e4] at h; injection h with h; subst h; exact Or.inr kernel_d_x2_zc_shift
  rw [if_neg e4] at h
  by_cases e5 : name = "d_y2"
  · rw [if_pos e5] at h; injection h with h; subst h; exact Or.inr kernel_d_y2_zc_shift
  rw [if_neg e5] at h
  by_cases e6 : name = "d_z2"
  · rw [if_pos e6] at h; injection h with h; subst h; exact Or.inr kernel_d_z2_zc_shift
  rw [if_neg e6] at h
  by_cases e7 : name = "d_xz2"
  · rw [if_pos e7] at h; injection h with h; subst h; exact Or.inr kernel_d_xz2_zc_shift
  rw [if_neg e7] at h
  by_cases e8 : name = "d_yz2"
  · rw [if_pos e8] at h; injection h with h; subst h; exact Or.inr kernel_d_yz2_zc_shift
  rw [if_neg e8] at h
  by_cases e9 : name = "d_zz2"
  · rw [if_pos e9] at h; injection h with h; subst h; exact Or.inr kernel_d_zz2_zc_shift
  rw [if_neg e9] at h
  by_cases e10 : name = "s_xz1"
  · rw [if_pos e10] at h; injection h with h; subst h; exact Or.inl kernel_s_xz1_zc_free
  rw [if_neg e10] at h
  by_cases e11 : name = "s_yz1"
  · rw [if_pos e11] at h; injection h with h; subst h; exact Or.inl kernel_s_yz1_zc_free
  rw [if_neg e11] at h
  by_cases e12 : name = "s_zz1"
  · rw [if_pos e12] at h; injection h with h; subst h; exact Or.inl kernel_s_zz1_zc_free
  rw [if_neg e12] at h
  by_cases e13 : name = "s_xz2"
  · rw [if_pos e13] at h; injection h with h; subst h; exact Or.inr kernel_s_xz2_zc_shift
  rw [if_neg e13] at h
  by_cases e14 : name = "s_yz2"
  · rw [if_pos e14] at h; injection h with h; subst h; exact Or.inr kernel_s_yz2_zc_shift
  rw [if_neg e14] at h
  by_cases e15 : name = "s_zz2"
  · rw [if_pos e15] at h; injection h with h; subst h; exact Or.inr kernel_s_zz2_zc_shift
  rw [if_neg e15] at h
  by_cases e16 : name = "s_xzz2"
  · rw [if_pos e16] at h; injection h with h; subst h; exact Or.inr kernel_s_xzz2_zc_shift
  rw [if_neg e16] at h
  by_cases e17 : name = "s_yzz2"
  · rw [if_pos e17] at h; injection h with h; subst h; exact Or.inr kernel_s_yzz2_zc_shift
  rw [if_neg e17] at h
  by_cases e18 : name = "s_zzz2"
  · rw [if_pos e18] at h; injection h with h; subst h; exact Or.inr kernel_s_zzz2_zc_shift
  rw [if_neg e18] at h
  exact absurd h (by simp)

/-- C2: for every kernel of the dictionary, every observation point and
every pressure, the engine value of one prism equals the engine value of
the 8 sub-prisms obtained by splitting it at arbitrary positions `ya, xa,
za` along the three axes (the reference test's partition is the instance
with the test's split points), all carrying the same pressure. -/
theorem c2_single_vs_split_prisms (name : String) (K : Kern)
    (hK : kernel_of name = some K)
    (y1 ya y2 x1 xa x2 z1 za z2 p yp xp zp : ℝ) :
    jit_point K [⟨y1, y2, x1, x2, z2, z1⟩] [p] yp xp zp
      = jit_point K
          [⟨y1, ya, x1, xa, z2, za⟩, ⟨y1, ya, xa, x2, z2, za⟩,
           ⟨ya, y2, x1, xa, z2, za⟩, ⟨ya, y2, xa, x2, z2, za⟩,
           ⟨y1, ya, x1, xa, za, z1⟩, ⟨y1, ya, xa, x2, za, z1⟩,
           ⟨ya, y2, x1, xa, za, z1⟩, ⟨ya, y2, xa, x2, za, z1⟩]
          (List.replicate 8 p) yp xp zp := by
  have hzsplit : ∀ (q u1 u2 v1 v2 w1 wa w2 a b c : ℝ),
      cornerLoop K q ⟨u1, u2, v1, v2, wa, w1⟩ a b c
        + cornerLoop K q ⟨u1, u2, v1, v2, w2, wa⟩ a b c
        = cornerLoop K q ⟨u1, u2, v1, v2, w2, w1⟩ a b c := by
    rcases kernel_of_shift_or_free name K hK with ⟨G, hG⟩ | ⟨G, hG⟩
    · exact fun q u1 u2 v1 v2 w1 wa w2 a b c =>
        cornerLoop_split_z_const K G hG q u1 u2 v1 v2 w1 wa w2 a b c
    · exact fun q u1 u2 v1 v2 w1 wa w2 a b c =>
        cornerLoop_split_z_shift K G hG q u1 u2 v1 v2 w1 wa w2 a b c
  have hz1 := hzsplit p y1 ya x1 xa z1 za z2 yp xp zp
  have hz2 := hzsplit p y1 ya xa x2 z1 za z2 yp xp zp
  have hz3 := hzsplit p ya y2 x1 xa z1 za z2 yp xp zp
  have hz4 := hzsplit p ya y2 xa x2 z1 za z2 yp xp zp
  have hx1 := cornerLoop_split_x K p y1 ya x1 xa x2 z2 z1 yp xp zp
  have hx2 := cornerLoop_split_x K p ya y2 x1 xa x2 z2 z1 yp xp zp
  have hy0 := cornerLoop_split_y K p y1 ya y2 x1 x2 z2 z1 yp xp zp
  simp only [jit_point, List.replicate, List.zip_cons_cons, List.zip_nil_right,
    List.foldl_cons, List.foldl_nil]
  linear_combination -hy0 - hx1 - hx2 - hz1 - hz2 - hz3 - hz4

/-- Witness for C2: the reference test's single prism against its 8
sub-prisms, pressure −100, at a concrete observation point. -/
theorem c2_single_vs_split_prisms_witness :
    jit_point kernel_d_x1 [⟨-100, 0, 100, 250, 350, 300⟩] [-100] 4 7 9
      = jit_point kernel_d_x1
          [⟨-100, -50, 100, 150, 350, 330⟩, ⟨-100, -50, 150, 250, 350, 330⟩,
           ⟨-50, 0, 100, 150, 350, 330⟩, ⟨-50, 0, 150, 250, 350, 330⟩,
           ⟨-100, -50, 100, 150, 330, 300⟩, ⟨-100, -50, 150, 250, 330, 300⟩,
           ⟨-50, 0, 100, 150, 330, 300⟩, ⟨-50, 0, 150, 250, 330, 300⟩]
          (List.replicate 8 (-100)) 4 7 9 :=
  c2_single_vs_split_prisms "d_x1" kernel_d_x1 (by simp [kernel_of])
    (-100) (-50) 0 100 150 250 300 330 350 (-100) 4 7 9

/-! ## Claim C6 -/

/-- Length of one rectangular-tiling row. -/
theorem rect_row_length (y dy dx bottom top : ℝ) (n : ℕ) :
    ∀ x : ℝ, (rect_row y dy dx bottom top n x).length = n := by
  induction n with
  | zero => intro x; simp [rect_row]
  | succ n ih => intro x; simp [rect_row, ih]

/-- Length of the full rectangular tiling: `rows * cols` cells. -/
theorem rect_rows_length (dy dx bottom top x1 : ℝ) (cols : ℕ) (rows : ℕ) :
    ∀ y : ℝ, (rect_rows dy dx bottom top x1 cols rows y).length = rows * cols := by
  induction rows with
  | zero => intro y; simp [rect_rows]
  | succ n ih => intro y; simp [rect_rows, ih, rect_row_length]; ring

/-- One circular-layer row is the corresponding rectangular-tiling row
filtered by the center-membership test. -/
theorem circ_row_eq_filter (y dy dx bottom top x0 radius y0 : ℝ) (n : ℕ) :
    ∀ x : ℝ,
      circ_row y dy dx (0.5 * dx) bottom top x0 radius (y + 0.5 * dy - y0) n x
        = (rect_row y dy dx bottom top n x).filter (in_circle y0 x0 radius dy dx) := by
  induction n with
  | zero => intro x; simp [circ_row, rect_row]
  | succ n ih =>
    intro x
    have hcond : in_circle y0 x0 radius dy dx ⟨y, y + dy, x, x + dx, bottom, top⟩
        = decide (Real.sqrt ((x + 0.5 * dx - x0) ^ 2 + (y + 0.5 * dy - y0) ^ 2)
            ≤ radius) := rfl
    by_cases hc : Real.sqrt ((x + 0.5 * dx - x0) ^ 2 + (y + 0.5 * dy - y0) ^ 2) ≤ radius
    · simp [circ_row, rect_row, List.filter_cons, hcond, hc, ih]
    · simp [circ_row, rect_row, List.filter_cons, hcond, hc, ih]

/-- The circular layer is the rectangular tiling of the bounding square
filtered by the center-membership test. -/
theorem circ_rows_eq_filter (dy dx bottom top y0 x0 radius x_min : ℝ) (cols : ℕ)
    (rows : ℕ) :
    ∀ y : ℝ,
      circ_rows dy dx (0.5 * dy) (0.5 * dx) bottom top y0 x0 radius x_min cols rows y
        = (rect_rows dy dx bottom top x_min cols rows y).filter
            (in_circle y0 x0 radius dy dx) := by
  induction rows with
  | zero => intro y; simp [circ_rows, rect_rows]
  | succ n ih =>
    intro y
    simp only [circ_rows, rect_rows, List.filter_append, ih, circ_row_eq_filter]

/-- C6 amended: `prism_layer_circular` returns exactly the cells of the
`shape`-sized bounding-square tiling (the tiling `prism_layer_rectangular`
produces for the bounding square) whose center lies within `radius` of the
center (test `r_cell ≤ radius`); consequently its cell count is at most —
but not always strictly fewer than — `rows * cols`. -/
theorem c6_circular_is_filtered_tiling (y0 x0 radius : ℝ) (rows cols : ℕ)
    (bottom top : ℝ) (hrad : radius > 0) (hbt : bottom > top) :
    prism_layer_rectangular (y0 - radius) (y0 + radius) (x0 - radius) (x0 + radius)
        rows cols bottom top
      = some (rect_rows ((y0 + radius - (y0 - radius)) / rows)
          ((x0 + radius - (x0 - radius)) / cols) bottom top (x0 - radius) cols rows
          (y0 - radius)) ∧
    prism_layer_circular y0 x0 radius rows cols bottom top
      = some ((rect_rows ((y0 + radius - (y0 - radius)) / rows)
          ((x0 + radius - (x0 - radius)) / cols) bottom top (x0 - radius) cols rows
          (y0 - radius)).filter
            (in_circle y0 x0 radius ((y0 + radius - (y0 - radius)) / rows)
              ((x0 + radius - (x0 - radius)) / cols))) ∧
    ((rect_rows ((y0 + radius - (y0 - radius)) / rows)
        ((x0 + radius - (x0 - radius)) / cols) bottom top (x0 - radius) cols rows
        (y0 - radius)).filter
          (in_circle y0 x0 radius ((y0 + radius - (y0 - radius)) / rows)
            ((x0 + radius - (x0 - radius)) / cols))).length ≤ rows * cols := by
  refine ⟨?_, ?_, ?_⟩
  · unfold prism_layer_rectangular
    rw [if_pos ⟨by linarith, by linarith, hbt⟩]
  · simp only [prism_layer_circular]
    rw [if_pos ⟨hrad, hbt⟩, circ_rows_eq_filter]
  · calc ((rect_rows ((y0 + radius - (y0 - radius)) / rows)
        ((x0 + radius - (x0 - radius)) / cols) bottom top (x0 - radius) cols rows
        (y0 - radius)).filter
          (in_circle y0 x0 radius ((y0 + radius - (y0 - radius)) / rows)
            ((x0 + radius - (x0 - radius)) / cols))).length
        ≤ (rect_rows ((y0 + radius - (y0 - radius)) / rows)
            ((x0 + radius - (x0 - radius)) / cols) bottom top (x0 - radius) cols rows
            (y0 - radius)).length := List.length_filter_le _ _
      _ = rows * cols := rect_rows_length _ _ _ _ _ _ _ _

/-- Witness for the amended C6 at concrete parameters. -/
theorem c6_circular_is_filtered_tiling_witness :
    prism_layer_circular 0 0 1 2 2 1 0
      = some ((rect_rows ((0 + 1 - (0 - 1)) / (2 : ℕ)) ((0 + 1 - (0 - 1)) / (2 : ℕ))
          1 0 (0 - 1) 2 2 (0 - 1)).filter
            (in_circle 0 0 1 ((0 + 1 - (0 - 1)) / (2 : ℕ)) ((0 + 1 - (0 - 1)) / (2 : ℕ)))) :=
  (c6_circular_is_filtered_tiling 0 0 1 2 2 1 0 (by norm_num) (by norm_num)).2.1

/-- C6 counterexample: for shape `(1, 1)` (radius 1, centered at the
origin) the circular layer keeps the single cell of the bounding-square
tiling — `1 * 1` cells, not strictly fewer than `rows * cols`, although the
radius is smaller than half the bounding square's diagonal. -/
theorem c6_full_tiling_counterexample :
    (prism_layer_circular 0 0 1 1 1 1 0).map List.length = some (1 * 1) := by
  norm_num [prism_layer_circular, circ_rows, circ_row, Real.sqrt_zero]

/-! ## Claim C4 -/

/-- C4 amended: `Int3` uses `np.heaviside(·, 0.5)`, whose value at 0 is
0.5, in both step terms.  At the boundary `r = R` the difference term still
vanishes (as `0.5 - 0.5`), but the third additive term contributes
`0.5/R`, so `Int3(q, R, R) = −q·√m·K(m)/(2πR·√(R·R)) + 1/(2R)` — not the
bare first term. -/
theorem c4_int3_boundary (el : Ellip) (q R : ℝ) :
    Int3 el q R R
      = -q * Real.sqrt (4 * R * R / (q ^ 2 + (R + R) ^ 2))
          * el.ellipk (4 * R * R / (q ^ 2 + (R + R) ^ 2))
          / (2 * Real.pi * R * Real.sqrt (R * R))
        + 1 / (2 * R) := by
  simp only [Int3]
  rw [show R - R = 0 from by ring]
  rw [show heaviside 0 0.5 = 0.5 from by simp [heaviside]]
  ring

/-- C4 counterexample: with constant-one stand-ins for the elliptic
integrals, at `q = r = R = 1` the code's `Int3(1, 1, 1)` differs from the
claimed value `−q·√m·K(m)/(2πR·√(R·R))` (the difference is the third
term's `0.5/R = 1/2`, which the claim asserts to be 0). -/
theorem c4_int3_boundary_counterexample :
    Int3 ellip_one 1 1 1
      ≠ -1 * Real.sqrt (4 * 1 * 1 / (1 ^ 2 + (1 + 1) ^ 2))
          * ellip_one.ellipk (4 * 1 * 1 / (1 ^ 2 + (1 + 1) ^ 2))
          / (2 * Real.pi * 1 * Real.sqrt (1 * 1)) := by
  intro he
  rw [c4_int3_boundary ellip_one 1 1] at he
  simp only [add_right_eq_self] at he
  norm_num at he

/-! ## `FReal` computation lemmas -/

namespace FReal

@[simp] theorem isFinite_fin (a : ℝ) : (fin a).isFinite = true := rfl

@[simp] theorem isFinite_nan : (nan).isFinite = false := rfl

@[simp] theorem isFinite_inf : (inf).isFinite = false := rfl

@[simp] theorem isFinite_ninf : (ninf).isFinite = false := rfl

@[simp] theorem fin_add_fin (a b : ℝ) : fin a + fin b = fin (a + b) := rfl

@[simp] theorem neg_fin (a : ℝ) : -(fin a) = fin (-a) := rfl

@[simp] theorem fin_sub_fin (a b : ℝ) : fin a - fin b = fin (a - b) := by
  show fadd (fin a) (fneg (fin b)) = fin (a - b)
  simp [fadd, fneg, sub_eq_add_neg]

@[simp] theorem fin_mul_fin (a b : ℝ) : fin a * fin b = fin (a * b) := rfl

theorem fin_div_fin {b : ℝ} (hb : b ≠ 0) (a : ℝ) : fin a / fin b = fin (a / b) := by
  show fdiv (fin a) (fin b) = fin (a / b)
  simp [fdiv, hb]

@[simp] theorem fin_pow (a : ℝ) (n : ℕ) : (fin a) ^ n = fin (a ^ n) := by
  induction n with
  | zero => show fpow (fin a) 0 = fin (a ^ 0); simp [fpow]
  | succ n ih =>
    show fpow (fin a) (n + 1) = fin (a ^ (n + 1))
    rw [fpow, show fpow (fin a) n = fin (a ^ n) from ih]
    show fin (a ^ n * a) = fin (a ^ (n + 1))
    rw [pow_succ]

@[simp] theorem fsqrt_nan : fsqrt nan = nan := rfl

theorem fsqrt_fin {a : ℝ} (ha : 0 ≤ a) : fsqrt (fin a) = fin (Real.sqrt a) := by
  simp [fsqrt, not_lt.2 ha]

@[simp] theorem fsqrt_fin_zero : fsqrt (fin 0) = fin 0 := by
  rw [fsqrt_fin le_rfl, Real.sqrt_zero]

@[simp] theorem fabs_fin (a : ℝ) : fabs (fin a) = fin |a| := rfl

@[simp] theorem zero_def : (0 : FReal) = fin 0 := by
  show fin ((0 : ℕ) : ℝ) = fin 0
  norm_num

@[simp] theorem one_def : (1 : FReal) = fin 1 := by
  show fin ((1 : ℕ) : ℝ) = fin 1
  norm_num

@[simp] theorem two_def : (2 : FReal) = fin 2 := by
  show fin ((2 : ℕ) : ℝ) = fin 2
  norm_num

@[simp] theorem three_def : (3 : FReal) = fin 3 := by
  show fin ((3 : ℕ) : ℝ) = fin 3
  norm_num

@[simp] theorem four_def : (4 : FReal) = fin 4 := by
  show fin ((4 : ℕ) : ℝ) = fin 4
  norm_num

@[simp] theorem eight_def : (8 : FReal) = fin 8 := by
  show fin ((8 : ℕ) : ℝ) = fin 8
  norm_num

theorem fpi_def : fpi = fin Real.pi := rfl

theorem not_finite_add_left {x : FReal} (hx : x.isFinite = false) (y : FReal) :
    (x + y).isFinite = false := by
  cases x with
  | fin a => simp at hx
  | nan => cases y <;> rfl
  | inf => cases y <;> rfl
  | ninf => cases y <;> rfl

theorem not_finite_add_right {y : FReal} (hy : y.isFinite = false) (x : FReal) :
    (x + y).isFinite = false := by
  cases y with
  | fin a => simp at hy
  | nan => cases x <;> rfl
  | inf => cases x <;> rfl
  | ninf => cases x <;> rfl

theorem not_finite_neg {x : FReal} (hx : x.isFinite = false) :
    (-x).isFinite = false := by
  cases x with
  | fin a => simp at hx
  | nan => rfl
  | inf => rfl
  | ninf => rfl

theorem sub_def (x y : FReal) : x - y = x + (-y) := rfl

theorem not_finite_sub_left {x : FReal} (hx : x.isFinite = false) (y : FReal) :
    (x - y).isFinite = false := by
  rw [sub_def]; exact not_finite_add_left hx _

theorem not_finite_mul_right {y : FReal} (hy : y.isFinite = false) (x : FReal) :
    (x * y).isFinite = false := by
  cases y with
  | fin a => simp at hy
  | nan => cases x <;> rfl
  | inf =>
    cases x with
    | fin a =>
      show (fmul (fin a) inf).isFinite = false
      simp only [fmul]
      split_ifs <;> rfl
    | nan => rfl
    | inf => rfl
    | ninf => rfl
  | ninf =>
    cases x with
    | fin a =>
      show (fmul (fin a) ninf).isFinite = false
      simp only [fmul]
      split_ifs <;> rfl
    | nan => rfl
    | inf => rfl
    | ninf => rfl

theorem not_finite_mul_left {x : FReal} (hx : x.isFinite = false) (y : FReal) :
    (x * y).isFinite = false := by
  cases x with
  | fin a => simp at hx
  | nan => cases y <;> rfl
  | inf =>
    cases y with
    | fin a =>
      show (fmul inf (fin a)).isFinite = false
      simp only [fmul]
      split_ifs <;> rfl
    | nan => rfl
    | inf => rfl
    | ninf => rfl
  | ninf =>
    cases y with
    | fin a =>
      show (fmul ninf (fin a)).isFinite = false
      simp only [fmul]
      split_ifs <;> rfl
    | nan => rfl
    | inf => rfl
    | ninf => rfl

theorem not_finite_div_fin_zero (x : FReal) : (x / fin 0).isFinite = false := by
  cases x with
  | nan => rfl
  | inf =>
    show (fdiv inf (fin 0)).isFinite = false
    simp only [fdiv]
    rw [if_pos le_rfl]; rfl
  | ninf =>
    show (fdiv ninf (fin 0)).isFinite = false
    simp only [fdiv]
    rw [if_pos le_rfl]; rfl
  | fin a =>
    show (fdiv (fin a) (fin 0)).isFinite = false
    simp only [fdiv]
    split_ifs <;> simp_all

theorem div_nan (x : FReal) : x / nan = nan := by cases x <;> rfl

theorem not_finite_div_nan (x : FReal) : (x / nan).isFinite = false := by
  rw [div_nan]; rfl

theorem nan_mul (y : FReal) : nan * y = nan := by cases y <;> rfl

theorem mul_nan (x : FReal) : x * nan = nan := by cases x <;> rfl

theorem mul_fin_zero_or (x : FReal) : x * fin 0 = fin 0 ∨ x * fin 0 = nan := by
  cases x with
  | fin a => left; rw [fin_mul_fin, mul_zero]
  | nan => right; rfl
  | inf => right; show fmul inf (fin 0) = nan; simp [fmul]
  | ninf => right; show fmul ninf (fin 0) = nan; simp [fmul]

theorem fin_zero_mul_or (x : FReal) : fin 0 * x = fin 0 ∨ fin 0 * x = nan := by
  cases x with
  | fin a => left; rw [fin_mul_fin, zero_mul]
  | nan => right; rfl
  | inf => right; show fmul (fin 0) inf = nan; simp [fmul]
  | ninf => right; show fmul (fin 0) ninf = nan; simp [fmul]

theorem zon_mul_left {x : FReal} (h : x = fin 0 ∨ x = nan) (y : FReal) :
    x * y = fin 0 ∨ x * y = nan := by
  rcases h with rfl | rfl
  · exact fin_zero_mul_or y
  · right; exact nan_mul y

theorem zon_mul_right {y : FReal} (h : y = fin 0 ∨ y = nan) (x : FReal) :
    x * y = fin 0 ∨ x * y = nan := by
  rcases h with rfl | rfl
  · exact mul_fin_zero_or x
  · right; exact mul_nan x

theorem zon_fsqrt {x : FReal} (h : x = fin 0 ∨ x = nan) :
    fsqrt x = fin 0 ∨ fsqrt x = nan := by
  rcases h with rfl | rfl
  · left; exact fsqrt_fin_zero
  · right; rfl

theorem zon_pow3 {x : FReal} (h : x = fin 0 ∨ x = nan) :
    x ^ 3 = fin 0 ∨ x ^ 3 = nan := by
  rcases h with rfl | rfl
  · left; rw [fin_pow]; norm_num
  · right; show fpow nan 3 = nan; rfl

theorem not_finite_div_zon {D : FReal} (h : D = fin 0 ∨ D = nan) (N : FReal) :
    (N / D).isFinite = false := by
  rcases h with rfl | rfl
  · exact not_finite_div_fin_zero N
  · exact not_finite_div_nan N

end FReal

/-! ## Non-finiteness of the disk integrals at separation `r = 0` -/

/-- `Int1` at `r = 0` divides by `π·√(m·0·R) = 0` (or propagates NaN), so
the result is never finite, whatever the elliptic functions return. -/
theorem int1F_not_finite_r_zero (el : EllipF) (q R : FReal) :
    (Int1F el q (.fin 0) R).isFinite = false := by
  simp only [Int1F]
  exact FReal.not_finite_div_zon
    (FReal.zon_mul_right
      (FReal.zon_fsqrt (FReal.zon_mul_left (FReal.mul_fin_zero_or _) R)) _) _

/-- `Int2` at `r = 0` divides by `2π·√(0·R)³ = 0` (or propagates NaN). -/
theorem int2F_not_finite_r_zero (el : EllipF) (q R : FReal) :
    (Int2F el q (.fin 0) R).isFinite = false := by
  simp only [Int2F]
  exact FReal.not_finite_div_zon
    (FReal.zon_mul_right
      (FReal.zon_pow3 (FReal.zon_fsqrt (FReal.fin_zero_mul_or R))) _) _

/-- `Int3` at `r = 0`: the first additive term divides by
`2πR·√(0·R) = 0` (or propagates NaN), and IEEE addition keeps the result
non-finite whatever the remaining terms are. -/
theorem int3F_not_finite_r_zero (el : EllipF) (q R : FReal) :
    (Int3F el q (.fin 0) R).isFinite = false := by
  simp only [Int3F]
  exact FReal.not_finite_add_left
    (FReal.not_finite_add_left
      (FReal.not_finite_div_zon
        (FReal.zon_mul_right (FReal.zon_fsqrt (FReal.fin_zero_mul_or R)) _) _) _) _

/-- `Int4` at `r = 0`: the first additive term divides by
`8π·√(0·R)³·R·(1−m) = 0` (or propagates NaN). -/
theorem int4F_not_finite_r_zero (el : EllipF) (q R : FReal) :
    (Int4F el q (.fin 0) R).isFinite = false := by
  simp only [Int4F]
  exact FReal.not_finite_add_left
    (FReal.not_finite_div_zon
      (FReal.zon_mul_left
        (FReal.zon_mul_left
          (FReal.zon_mul_right
            (FReal.zon_pow3 (FReal.zon_fsqrt (FReal.fin_zero_mul_or R))) _) _) _) _) _

/-! ## Claim C9 -/

/-- At an observation point equal to the entry center, the radial
accumuland is non-finite (float semantics): every `Int1`/`Int2` value at
`r = 0` is NaN or infinite and propagates. -/
theorem ur_termF_not_finite_same (el : EllipF) (poisson DP : FReal) (a b c : ℝ)
    (R : FReal) :
    (geertsma_ur_termF el poisson DP (.fin a) (.fin b) (.fin c)
      (.fin a) (.fin b) (.fin c) R).isFinite = false := by
  simp only [geertsma_ur_termF]
  have hr : FReal.fsqrt ((FReal.fin a - FReal.fin a) ^ 2
      + (FReal.fin b - FReal.fin b) ^ 2 + (FReal.fin c - FReal.fin c) ^ 2)
      = FReal.fin 0 := by simp
  rw [hr]
  refine FReal.not_finite_neg (FReal.not_finite_mul_right ?_ DP)
  exact FReal.not_finite_sub_left
    (FReal.not_finite_add_left (int1F_not_finite_r_zero _ _ _) _) _

/-- At an observation point equal to the entry center, the vertical
accumuland is non-finite (float semantics): the source divides by
`|zp - zc| = 0`. -/
theorem uz_termF_not_finite_same (el : EllipF) (poisson DP : FReal) (a b c : ℝ)
    (R : FReal) :
    (geertsma_uz_termF el poisson DP (.fin a) (.fin b) (.fin c)
      (.fin a) (.fin b) (.fin c) R).isFinite = false := by
  simp only [geertsma_uz_termF]
  have habs : FReal.fabs (FReal.fin c - FReal.fin c) = FReal.fin 0 := by simp
  rw [habs]
  refine FReal.not_finite_mul_right ?_ DP
  exact FReal.not_finite_sub_left
    (FReal.not_finite_sub_left (FReal.not_finite_div_fin_zero _) _) _

/-- C9: `geertsma` applies no division-by-zero guard — for an observation
point that coincides with a model entry's center (`r = 0`), both returned
displacement entries are non-finite under IEEE float semantics (no
exception is modelled or raised: the function is total and returns
values), whatever the elliptic-integral functions return and for all
material parameters. -/
theorem c9_geertsma_r_zero_not_finite (el : EllipF)
    (y1 y2 x1 x2 z2 z1 DPv cm poisson R h : ℝ) :
    ((geertsmaF el
        [(.fin ((y2 + y1) / 2), .fin ((x2 + x1) / 2), .fin ((z2 + z1) / 2))]
        [⟨.fin y1, .fin y2, .fin x1, .fin x2, .fin z2, .fin z1⟩]
        [.fin DPv] (.fin cm) (.fin poisson) (.fin R) (.fin h)).1.map
          FReal.isFinite = [false]) ∧
    ((geertsmaF el
        [(.fin ((y2 + y1) / 2), .fin ((x2 + x1) / 2), .fin ((z2 + z1) / 2))]
        [⟨.fin y1, .fin y2, .fin x1, .fin x2, .fin z2, .fin z1⟩]
        [.fin DPv] (.fin cm) (.fin poisson) (.fin R) (.fin h)).2.map
          FReal.isFinite = [false]) := by
  have hmid : ∀ u v : ℝ,
      (FReal.fin u + FReal.fin v) / (2 : FReal) = FReal.fin ((u + v) / 2) := by
    intro u v
    rw [FReal.fin_add_fin, FReal.two_def, FReal.fin_div_fin two_ne_zero]
  constructor
  · simp only [geertsmaF, List.zip_cons_cons, List.zip_nil_right, List.foldl_cons,
      List.foldl_nil, List.map_cons, List.map_nil, List.cons.injEq, and_true]
    simp only [hmid]
    exact FReal.not_finite_mul_left
      (FReal.not_finite_add_right
        (ur_termF_not_finite_same el (.fin poisson) (.fin DPv) _ _ _ (.fin R)) _) _
  · simp only [geertsmaF, List.zip_cons_cons, List.zip_nil_right, List.foldl_cons,
      List.foldl_nil, List.map_cons, List.map_nil, List.cons.injEq, and_true]
    simp only [hmid]
    exact FReal.not_finite_mul_left
      (FReal.not_finite_add_right
        (uz_termF_not_finite_same el (.fin poisson) (.fin DPv) _ _ _ (.fin R)) _) _

/-! ## Claim C5 -/

namespace FReal

theorem isFinite_mul {x y : FReal} (hx : x.isFinite = true) (hy : y.isFinite = true) :
    (x * y).isFinite = true := by
  cases x <;> cases y <;> simp_all

theorem isFinite_add {x y : FReal} (hx : x.isFinite = true) (hy : y.isFinite = true) :
    (x + y).isFinite = true := by
  cases x <;> cases y <;> simp_all

theorem isFinite_sub {x y : FReal} (hx : x.isFinite = true) (hy : y.isFinite = true) :
    (x - y).isFinite = true := by
  cases x <;> cases y <;> simp_all [sub_def]

theorem isFinite_div_fin {x : FReal} (hx : x.isFinite = true) {b : ℝ} (hb : b ≠ 0) :
    (x / fin b).isFinite = true := by
  cases x with
  | fin a => rw [fin_div_fin hb]; rfl
  | nan => simp at hx
  | inf => simp at hx
  | ninf => simp at hx

theorem isFinite_fheaviside_fin (a h0 : ℝ) : (fheaviside (fin a) h0).isFinite = true := rfl

theorem isFinite_fsign_fin (a : ℝ) : (fsign (fin a)).isFinite = true := rfl

theorem isFinite_fsqrt_fin {a : ℝ} (ha : 0 ≤ a) : (fsqrt (fin a)).isFinite = true := by
  rw [fsqrt_fin ha]; rfl

end FReal

/-- The uz accumuland written with the sign convention agrees with the
source's `(zp-zc)*Int3(...)/|zp-zc|` form away from `zp = zc` (real
semantics). -/
theorem geertsma_uz_term_eq_sign (el : Ellip) (poisson DP yp xp zp yc xc zc R : ℝ)
    (hz : zp ≠ zc) :
    geertsma_uz_term el poisson DP yp xp zp yc xc zc R
      = spec_uz_term el poisson DP yp xp zp yc xc zc R := by
  simp only [geertsma_uz_term, spec_uz_term]
  have hsub : zp - zc ≠ 0 := sub_ne_zero.2 hz
  rcases hsub.lt_or_lt with hlt | hgt
  · rw [abs_of_neg hlt, Real.sign_of_neg hlt]
    have key : ∀ t : ℝ, (zp - zc) * t / (-(zp - zc)) = (-1) * t := by
      intro t
      rw [div_neg, mul_comm, mul_div_assoc, div_self hsub, mul_one]
      ring
    rw [key]
  · rw [abs_of_pos hgt, Real.sign_of_pos hgt]
    have key : ∀ t : ℝ, (zp - zc) * t / (zp - zc) = 1 * t := by
      intro t
      rw [mul_comm, mul_div_assoc, div_self hsub, mul_one, one_mul]
    rw [key]

/-- C5 amended: for observation points whose depth differs from every model
entry's mid-depth, `geertsma` accumulates, per entry, exactly
`ΔP·(sign(zp−zc)·Int3(|zp−zc|,r,R) − (3−4ν)·Int3(zp+zc,r,R)
− 2·zp·Int4(zp+zc,r,R))` into the vertical component, scales both summed
accumulators by `cm·R·h/2` and returns `(ur, uz)`.  (At `zp = zc` the code
instead evaluates `(zp−zc)·Int3/|zp−zc| = 0/0`, which is NaN in floats —
see the counterexample.) -/
theorem c5_geertsma_formula (el : Ellip) (coordinates : List (ℝ × ℝ × ℝ))
    (model : List Prism) (DP : List ℝ) (cm poisson R h : ℝ)
    (hz : ∀ c ∈ coordinates, ∀ md ∈ model, c.2.2 ≠ (md.z2 + md.z1) / 2) :
    geertsma el coordinates model DP cm poisson R h
      = (coordinates.map fun c =>
          (((model.zip DP).map fun md =>
            geertsma_ur_term el poisson md.2 c.1 c.2.1 c.2.2
              ((md.1.y2 + md.1.y1) / 2) ((md.1.x2 + md.1.x1) / 2)
              ((md.1.z2 + md.1.z1) / 2) R).sum) * (cm * R * h / 2),
         coordinates.map fun c =>
          (((model.zip DP).map fun md =>
            spec_uz_term el poisson md.2 c.1 c.2.1 c.2.2
              ((md.1.y2 + md.1.y1) / 2) ((md.1.x2 + md.1.x1) / 2)
              ((md.1.z2 + md.1.z1) / 2) R).sum) * (cm * R * h / 2)) := by
  simp only [geertsma, Prod.mk.injEq]
  constructor
  · refine congrArg (fun f => List.map f coordinates) ?_
    funext c
    rw [foldl_add_eq, zero_add]
  · refine List.map_congr_left fun c hc => ?_
    rw [foldl_add_eq, zero_add]
    refine congrArg (· * (cm * R * h / 2)) ?_
    refine congrArg List.sum (List.map_congr_left fun md hmd => ?_)
    exact geertsma_uz_term_eq_sign el poisson md.2 c.1 c.2.1 c.2.2 _ _ _ R
      (hz c hc md.1 (List.of_mem_zip hmd).1)

/-- Witness for the amended C5 at a concrete point and model entry with
`zp ≠ zc`. -/
theorem c5_geertsma_formula_witness :
    geertsma ellip_one [((3 : ℝ), (0 : ℝ), (1 : ℝ))] [⟨-1, 1, -1, 1, -1, 1⟩]
        [2] 1 0.25 1 1
      = ([((3 : ℝ), (0 : ℝ), (1 : ℝ))].map fun c =>
          ((([(⟨-1, 1, -1, 1, -1, 1⟩ : Prism)].zip [(2 : ℝ)]).map fun md =>
            geertsma_ur_term ellip_one 0.25 md.2 c.1 c.2.1 c.2.2
              ((md.1.y2 + md.1.y1) / 2) ((md.1.x2 + md.1.x1) / 2)
              ((md.1.z2 + md.1.z1) / 2) 1).sum) * (1 * 1 * 1 / 2),
         [((3 : ℝ), (0 : ℝ), (1 : ℝ))].map fun c =>
          ((([(⟨-1, 1, -1, 1, -1, 1⟩ : Prism)].zip [(2 : ℝ)]).map fun md =>
            spec_uz_term ellip_one 0.25 md.2 c.1 c.2.1 c.2.2
              ((md.1.y2 + md.1.y1) / 2) ((md.1.x2 + md.1.x1) / 2)
              ((md.1.z2 + md.1.z1) / 2) 1).sum) * (1 * 1 * 1 / 2)) :=
  c5_geertsma_formula ellip_one _ _ _ 1 0.25 1 1
    (by
      intro c hc md hmd
      rw [List.mem_singleton] at hc hmd
      subst hc; subst hmd
      norm_num)

/-- With constant-one elliptic stand-ins, `Int3` at `q = 0`, `r = 3`,
`R = 1` is a finite float: every denominator is a nonzero finite value. -/
theorem int3F_one_finite_q0 :
    (Int3F ellipF_one (.fin 0) (.fin 3) (.fin 1)).isFinite = true := by
  simp only [Int3F, ellipF_one]
  have hm : (4 * FReal.fin 1 * FReal.fin 3
      / (FReal.fin 0 ^ 2 + (FReal.fin 3 + FReal.fin 1) ^ 2) : FReal)
      = FReal.fin (3 / 4) := by
    rw [show (4 : FReal) * FReal.fin 1 * FReal.fin 3 = FReal.fin 12 from by
        simp <;> norm_num,
      show (FReal.fin (0 : ℝ) ^ 2 + (FReal.fin 3 + FReal.fin 1) ^ 2 : FReal)
        = FReal.fin 16 from by simp <;> norm_num,
      FReal.fin_div_fin (by norm_num : (16 : ℝ) ≠ 0)]
    simp <;> norm_num
  rw [hm]
  have hd1 : (2 * FReal.fpi * FReal.fin 1 * FReal.fsqrt (FReal.fin 3 * FReal.fin 1) : FReal)
      = FReal.fin (2 * Real.pi * 1 * Real.sqrt 3) := by
    rw [show FReal.fin (3 : ℝ) * FReal.fin 1 = FReal.fin 3 from by simp <;> norm_num,
      FReal.fsqrt_fin (by norm_num : (0 : ℝ) ≤ 3), FReal.two_def, FReal.fpi_def,
      FReal.fin_mul_fin, FReal.fin_mul_fin, FReal.fin_mul_fin]
  rw [hd1]
  rw [show (2 : FReal) * FReal.fin 1 = FReal.fin 2 from by simp <;> norm_num]
  rw [FReal.fpi_def]
  simp only [FReal.fin_sub_fin]
  refine FReal.isFinite_add (FReal.isFinite_add ?_ ?_) ?_
  · refine FReal.isFinite_div_fin ?_ (by positivity)
    refine FReal.isFinite_mul (FReal.isFinite_mul (by simp <;> norm_num) ?_)
      (by simp <;> norm_num)
    exact FReal.isFinite_fsqrt_fin (by norm_num)
  · refine FReal.isFinite_div_fin ?_ two_ne_zero
    refine FReal.isFinite_mul ?_ ?_
    · exact FReal.isFinite_sub (FReal.isFinite_fheaviside_fin _ _)
        (FReal.isFinite_fheaviside_fin _ _)
    · refine FReal.isFinite_add
        (FReal.isFinite_div_fin (by simp <;> norm_num) one_ne_zero) ?_
      refine FReal.isFinite_div_fin ?_ Real.pi_ne_zero
      refine FReal.isFinite_mul (by simp <;> norm_num) ?_
      exact FReal.isFinite_sub (by simp <;> norm_num)
        (FReal.isFinite_div_fin (by simp <;> norm_num) one_ne_zero)
  · exact FReal.isFinite_div_fin (FReal.isFinite_fheaviside_fin _ _) one_ne_zero

/-- With constant-one elliptic stand-ins, `Int4` at `q = 0`, `r = 3`,
`R = 1` is a finite float. -/
theorem int4F_one_finite_q0 :
    (Int4F ellipF_one (.fin 0) (.fin 3) (.fin 1)).isFinite = true := by
  simp only [Int4F, ellipF_one]
  have hm : (4 * FReal.fin 1 * FReal.fin 3
      / (FReal.fin 0 ^ 2 + (FReal.fin 3 + FReal.fin 1) ^ 2) : FReal)
      = FReal.fin (3 / 4) := by
    rw [show (4 : FReal) * FReal.fin 1 * FReal.fin 3 = FReal.fin 12 from by
        simp <;> norm_num,
      show (FReal.fin (0 : ℝ) ^ 2 + (FReal.fin 3 + FReal.fin 1) ^ 2 : FReal)
        = FReal.fin 16 from by simp <;> norm_num,
      FReal.fin_div_fin (by norm_num : (16 : ℝ) ≠ 0)]
    simp <;> norm_num
  rw [hm]
  rw [show FReal.fin (3 : ℝ) * FReal.fin 1 = FReal.fin 3 from by simp <;> norm_num,
    FReal.fsqrt_fin (by norm_num : (0 : ℝ) ≤ 3),
    FReal.fsqrt_fin (by norm_num : (0 : ℝ) ≤ 3 / 4)]
  rw [show (1 : FReal) - FReal.fin (3 / 4) = FReal.fin (1 / 4) from by
    simp <;> norm_num]
  have hd1 : (8 * FReal.fpi * FReal.fin (Real.sqrt 3) ^ 3 * FReal.fin 1
      * FReal.fin (1 / 4) : FReal)
      = FReal.fin (8 * Real.pi * Real.sqrt 3 ^ 3 * 1 * (1 / 4)) := by
    rw [FReal.eight_def, FReal.fpi_def, FReal.fin_pow, FReal.fin_mul_fin,
      FReal.fin_mul_fin, FReal.fin_mul_fin, FReal.fin_mul_fin]
  rw [hd1]
  have hd2 : (2 * FReal.fpi * FReal.fin 1 * FReal.fin (Real.sqrt 3) : FReal)
      = FReal.fin (2 * Real.pi * 1 * Real.sqrt 3) := by
    rw [FReal.two_def, FReal.fpi_def, FReal.fin_mul_fin, FReal.fin_mul_fin,
      FReal.fin_mul_fin]
  rw [hd2]
  refine FReal.isFinite_add ?_ ?_
  · refine FReal.isFinite_div_fin ?_ (by positivity)
    refine FReal.isFinite_mul (FReal.isFinite_mul (by simp <;> norm_num) ?_)
      (by simp <;> norm_num)
    exact FReal.isFinite_sub
      (FReal.isFinite_sub (by simp <;> norm_num) (by simp <;> norm_num))
      (by simp <;> norm_num)
  · refine FReal.isFinite_div_fin ?_ (by positivity)
    exact FReal.isFinite_mul (by simp <;> norm_num) (by simp <;> norm_num)

/-- C5 counterexample: at an observation point with `zp = zc` (and positive
horizontal separation, so `r ≠ 0`), the code's vertical entry is non-finite
under float semantics — the source evaluates `(zp−zc)·Int3/|zp−zc| = 0/0` —
while the claim's sign-convention accumuland evaluates to a finite float
(shown with constant-one elliptic stand-ins; the non-finiteness of the code
side holds for arbitrary elliptic functions).  So the claimed formula does
not hold "including at points with zp = zc". -/
theorem c5_sign_at_center_counterexample :
    ((geertsmaF ellipF_one [(.fin 3, .fin 0, .fin 0)]
        [⟨.fin (-1), .fin 1, .fin (-1), .fin 1, .fin (-1), .fin 1⟩]
        [.fin 1] (.fin 1) (.fin (1 / 4)) (.fin 1) (.fin 1)).2.map FReal.isFinite
      = [false]) ∧
    (spec_uz_termF ellipF_one (.fin (1 / 4)) (.fin 1) (.fin 3) (.fin 0) (.fin 0)
        (.fin 0) (.fin 0) (.fin 0) (.fin 1)).isFinite = true := by
  constructor
  · simp only [geertsmaF, List.zip_cons_cons, List.zip_nil_right, List.foldl_cons,
      List.foldl_nil, List.map_cons, List.map_nil, List.cons.injEq, and_true]
    have hyc : (FReal.fin (1 : ℝ) + FReal.fin (-1 : ℝ)) / (2 : FReal)
        = FReal.fin 0 := by
      rw [FReal.fin_add_fin, FReal.two_def, FReal.fin_div_fin two_ne_zero]
      norm_num
    have hzc : (FReal.fin (-1 : ℝ) + FReal.fin (1 : ℝ)) / (2 : FReal)
        = FReal.fin 0 := by
      rw [FReal.fin_add_fin, FReal.two_def, FReal.fin_div_fin two_ne_zero]
      norm_num
    rw [hyc, hzc]
    refine FReal.not_finite_mul_left (FReal.not_finite_add_right ?_ _) _
    simp only [geertsma_uz_termF]
    have habs : FReal.fabs (FReal.fin 0 - FReal.fin 0) = FReal.fin 0 := by simp
    rw [habs]
    refine FReal.not_finite_mul_right ?_ _
    exact FReal.not_finite_sub_left
      (FReal.not_finite_sub_left (FReal.not_finite_div_fin_zero _) _) _
  · simp only [spec_uz_termF, FReal.fin_sub_fin, FReal.fin_pow, FReal.fin_add_fin,
      FReal.fabs_fin]
    have hr : FReal.fsqrt (FReal.fin ((3 - 0) ^ 2 + (0 - 0) ^ 2 + (0 - 0) ^ 2))
        = FReal.fin 3 := by
      rw [show ((3 - 0 : ℝ) ^ 2 + (0 - 0 : ℝ) ^ 2 + (0 - 0 : ℝ) ^ 2) = (9 : ℝ) from by
        norm_num]
      rw [FReal.fsqrt_fin (by norm_num : (0 : ℝ) ≤ 9)]
      rw [show (9 : ℝ) = 3 ^ 2 from by norm_num,
        Real.sqrt_sq (by norm_num : (0 : ℝ) ≤ 3)]
    rw [hr]
    rw [show FReal.fin |(0 : ℝ) - 0| = FReal.fin 0 from by simp <;> norm_num,
      show FReal.fin ((0 : ℝ) + 0) = FReal.fin 0 from by simp <;> norm_num]
    refine FReal.isFinite_mul (by simp <;> norm_num) ?_
    refine FReal.isFinite_sub (FReal.isFinite_sub ?_ ?_) ?_
    · exact FReal.isFinite_mul (FReal.isFinite_fsign_fin _) (int3F_one_finite_q0)
    · exact FReal.isFinite_mul (by simp <;> norm_num) (int3F_one_finite_q0)
    · exact FReal.isFinite_mul (by simp <;> norm_num) (int4F_one_finite_q0)

end DisReserv
